import Mathlib

/-!
Verification development for the quote-resolution core of
`teamjans_portfolio_tracker` (`src/app.py`).

The embedding models:
* the in-memory price cache `PRICE_CACHE`, the rate-limit cooldown deadline
  `RATE_LIMIT_UNTIL` and the persistent `last_quotes` table as one state record;
* `_cache_get`, `_cache_set`, `_rate_limited`, `_set_rate_limit_cooldown`,
  `_db_get_quote`, `_db_set_quote`;
* the single-ticker resolver `get_stock_price` with its three-provider chain
  (RapidAPI market/v2/get-quotes, then stock/v2/get-summary, then the public
  Yahoo v7 quote endpoint);
* the batch resolver `fetch_quotes_batch`;
* the valuation logic of `calculate_portfolio_summary` and `view_portfolio`.

Conventions: prices are rationals; timestamps are integers (the code only
compares timestamps and shifts them by constant windows, so integer seconds
are a faithful model of `time.time()` values); `time.time()` is modelled as
an explicit `now` argument, treated as constant within one invocation.
Python exceptions raised by `requests` calls are modelled by outcome values
(`FetchOutcome` / `SummaryOutcome`): every provider call in the source sits in
a `try` block whose handlers catch `requests.HTTPError` and `Exception`, so an
invocation's behaviour is a pure function of those outcomes.  Each resolver
also reports how many outbound provider calls it issued.
-/

/-- A quote triple `(price, previous_close, change)`, each field optional,
mirroring the Python tuples `(price, prev_close, change)` whose components
may each be `None`. -/
abbrev Triple : Type := Option ℚ × Option ℚ × Option ℚ

/-- First-match association-list lookup; the embedding of Python
`dict.get(k)` for the dicts built below (which keep at most one entry per
key, exactly like a Python dict). -/
def lookupKey {α : Type} (k : String) : List (String × α) → Option α
  | [] => none
  | (k', v) :: rest => if k = k' then some v else lookupKey k rest

/-- Insert-or-replace keyed by `k`, keeping the original position of an
existing key, exactly like assignment `d[k] = v` on a Python dict (and like
the SQL upsert used by `_db_set_quote`). -/
def upsert {α : Type} (k : String) (v : α) : List (String × α) → List (String × α)
  | [] => [(k, v)]
  | (k', v') :: rest => if k = k' then (k, v) :: rest else (k', v') :: upsert k v rest

/-- Cache time-to-live in seconds (`PRICE_TTL_SECONDS = 600`). -/
def PRICE_TTL_SECONDS : ℤ := 600

/-- Backoff window after a 429, in seconds (`RATE_LIMIT_COOLDOWN = 120`). -/
def RATE_LIMIT_COOLDOWN : ℤ := 120

/-- The mutable module-level state of `app.py`:
`PRICE_CACHE : {ticker: (timestamp, (price, prev_close, change))}`,
the cooldown deadline `RATE_LIMIT_UNTIL`, and the persistent
`last_quotes` table (ticker is its primary key). -/
structure St where
  PRICE_CACHE : List (String × ℤ × Triple)
  RATE_LIMIT_UNTIL : ℤ
  last_quotes : List (String × Triple)
  deriving DecidableEq, Repr

/-- Embeds `_cache_get` (app.py lines 118-125): returns the cached triple only
if `now - ts <= PRICE_TTL_SECONDS`, else behaves as absent (the stale entry is
not removed). -/
def _cache_get (now : ℤ) (st : St) (ticker : String) : Option Triple :=
  match lookupKey ticker st.PRICE_CACHE with
  | none => none
  | some (ts, triple) => if now - ts ≤ PRICE_TTL_SECONDS then some triple else none

/-- Embeds `_cache_set` (lines 128-129): unconditionally overwrite, resetting
the entry's age to zero. -/
def _cache_set (now : ℤ) (st : St) (ticker : String) (triple : Triple) : St :=
  { st with PRICE_CACHE := upsert ticker (now, triple) st.PRICE_CACHE }

/-- Embeds `_rate_limited` (lines 132-133): `time.time() < RATE_LIMIT_UNTIL`. -/
def _rate_limited (now : ℤ) (st : St) : Bool :=
  decide (now < st.RATE_LIMIT_UNTIL)

/-- Embeds `_set_rate_limit_cooldown` (lines 136-138): set the global deadline
to `now + RATE_LIMIT_COOLDOWN`. -/
def _set_rate_limit_cooldown (now : ℤ) (st : St) : St :=
  { st with RATE_LIMIT_UNTIL := now + RATE_LIMIT_COOLDOWN }

/-- Embeds `_db_get_quote` (lines 144-160): SELECT by primary key from
`last_quotes` (the float conversions are identity here). -/
def _db_get_quote (st : St) (ticker : String) : Option Triple :=
  lookupKey ticker st.last_quotes

/-- Embeds `_db_set_quote` (lines 163-186): upsert keyed by ticker. -/
def _db_set_quote (st : St) (ticker : String) (triple : Triple) : St :=
  { st with last_quotes := upsert ticker triple st.last_quotes }

/-- One element of a parsed `quoteResponse.result` list: the symbol plus the
three optional market fields the code extracts. -/
structure RawQuote where
  symbol : String
  regularMarketPrice : Option ℚ
  regularMarketPreviousClose : Option ℚ
  regularMarketChange : Option ℚ
  deriving DecidableEq, Repr

/-- The triple the code builds from a quote dict. -/
def tripleOf (q : RawQuote) : Triple :=
  (q.regularMarketPrice, q.regularMarketPreviousClose, q.regularMarketChange)

/-- Behaviour of one `requests.get(...)` / `raise_for_status` / `json()`
sequence against a get-quotes-shaped endpoint:
* `ok quotes` — HTTP success, body parsed, `quoteResponse.result = quotes`
  (missing keys give `[]`);
* `httpError status` — `requests.HTTPError` raised, with
  `getattr(e.response, "status_code", None) = status`;
* `exn` — any other exception (network error, malformed JSON, ...). -/
inductive FetchOutcome where
  | ok (quotes : List RawQuote)
  | httpError (status : Option ℕ)
  | exn
  deriving DecidableEq, Repr

/-- Behaviour of the `stock/v2/get-summary` call; on success the code digs the
three `.raw` values out of `data2["price"]`, any of which may be absent. -/
inductive SummaryOutcome where
  | ok (price prev_close change : Option ℚ)
  | httpError (status : Option ℕ)
  | exn
  deriving DecidableEq, Repr

/-- Result of running one provider section of `get_stock_price`:
either a `return triple` was executed, or control fell through to the next
section (possibly having set the cooldown). -/
inductive StepRes where
  | done (triple : Triple) (st : St)
  | cont (st : St)
  deriving DecidableEq, Repr

/-- Embeds the `market/v2/get-quotes` section of `get_stock_price`
(lines 302-349).  `cached` is the value of the Python local `cached` (always
`None` on this path: a non-`None` value returned at the top of the function).
On success the first result is accepted iff at least one of the three fields
is non-`None`; on a 429 the cooldown is set; every handler falls back to
`cached`, then the DB row, else control continues to the next section. -/
def step_quotes (now : ℤ) (st : St) (cached : Option Triple) (oq : FetchOutcome)
    (ticker : String) : StepRes :=
  match oq with
  | .ok results =>
    match results.head? with
    | some r =>
      if r.regularMarketPrice.isSome || r.regularMarketPreviousClose.isSome
          || r.regularMarketChange.isSome then
        StepRes.done (tripleOf r)
          (_db_set_quote (_cache_set now st ticker (tripleOf r)) ticker (tripleOf r))
      else
        StepRes.cont st
    | none => StepRes.cont st
  | .httpError status =>
    let st1 := if status = some 429 then _set_rate_limit_cooldown now st else st
    match cached with
    | some c => StepRes.done c st1
    | none =>
      match _db_get_quote st1 ticker with
      | some dbq => StepRes.done dbq st1
      | none => StepRes.cont st1
  | .exn =>
    match cached with
    | some c => StepRes.done c st
    | none =>
      match _db_get_quote st ticker with
      | some dbq => StepRes.done dbq st
      | none => StepRes.cont st

/-- Embeds the `stock/v2/get-summary` section (lines 351-392); same shape as
`step_quotes` but the three fields are read directly from the parsed body. -/
def step_summary (now : ℤ) (st : St) (cached : Option Triple) (os : SummaryOutcome)
    (ticker : String) : StepRes :=
  match os with
  | .ok price prev_close change =>
    if price.isSome || prev_close.isSome || change.isSome then
      StepRes.done (price, prev_close, change)
        (_db_set_quote (_cache_set now st ticker (price, prev_close, change))
          ticker (price, prev_close, change))
    else
      StepRes.cont st
  | .httpError status =>
    let st1 := if status = some 429 then _set_rate_limit_cooldown now st else st
    match cached with
    | some c => StepRes.done c st1
    | none =>
      match _db_get_quote st1 ticker with
      | some dbq => StepRes.done dbq st1
      | none => StepRes.cont st1
  | .exn =>
    match cached with
    | some c => StepRes.done c st
    | none =>
      match _db_get_quote st ticker with
      | some dbq => StepRes.done dbq st
      | none => StepRes.cont st

/-- Embeds the public Yahoo fallback section (lines 394-441).  Unlike the two
RapidAPI sections, the success branch has NO non-absent-field guard: any
non-empty result list is cached, persisted and returned as-is. -/
def step_public (now : ℤ) (st : St) (cached : Option Triple) (op : FetchOutcome)
    (ticker : String) : StepRes :=
  match op with
  | .ok results =>
    match results.head? with
    | some r =>
      StepRes.done (tripleOf r)
        (_db_set_quote (_cache_set now st ticker (tripleOf r)) ticker (tripleOf r))
    | none => StepRes.cont st
  | .httpError status =>
    let st1 := if status = some 429 then _set_rate_limit_cooldown now st else st
    match cached with
    | some c => StepRes.done c st1
    | none =>
      match _db_get_quote st1 ticker with
      | some dbq => StepRes.done dbq st1
      | none => StepRes.cont st1
  | .exn =>
    match cached with
    | some c => StepRes.done c st
    | none =>
      match _db_get_quote st ticker with
      | some dbq => StepRes.done dbq st
      | none => StepRes.cont st

/-- Result of a resolver invocation: the returned triple, the state after the
invocation, and the number of outbound provider calls issued. -/
structure SingleRes where
  triple : Triple
  st : St
  calls : ℕ
  deriving DecidableEq, Repr

/-- Embeds `get_stock_price` (lines 283-443).
`rapidapi_key` models the truthiness of `os.environ.get("RAPIDAPI_KEY")`;
`oq`, `os'`, `op` are the behaviours the three endpoints would exhibit if
called.  The Python local `cached` is `None` on every path past the first
early return, so the per-handler `if cached is not None: return cached`
branches receive the literal `none` here (they are unreachable with a
non-`None` value). -/
def get_stock_price (now : ℤ) (st : St) (rapidapi_key : Bool) (oq : FetchOutcome)
    (os' : SummaryOutcome) (op : FetchOutcome) (ticker : String) : SingleRes :=
  match _cache_get now st ticker with
  | some cached => ⟨cached, st, 0⟩
  | none =>
    if _rate_limited now st then
      ⟨(_db_get_quote st ticker).getD (none, none, none), st, 0⟩
    else if rapidapi_key then
      match step_quotes now st none oq ticker with
      | .done t st1 => ⟨t, st1, 1⟩
      | .cont st1 =>
        match step_summary now st1 none os' ticker with
        | .done t st2 => ⟨t, st2, 2⟩
        | .cont st2 =>
          match step_public now st2 none op ticker with
          | .done t st3 => ⟨t, st3, 3⟩
          | .cont st3 => ⟨(none, none, none), st3, 3⟩
    else
      match step_public now st none op ticker with
      | .done t st1 => ⟨t, st1, 1⟩
      | .cont st1 => ⟨(none, none, none), st1, 1⟩

example :
    (get_stock_price 1000
      ⟨[("BHP.AX", (0, (some 1, some 2, some 3)))], 2000,
        [("BHP.AX", (some 4, some 5, some 6))]⟩
      true (.ok []) (.ok none none none) (.ok []) "BHP.AX").triple
    = (some 4, some 5, some 6) := by decide

example :
    (get_stock_price 100
      ⟨[("BHP.AX", (0, (some 1, some 2, some 3)))], 0, []⟩
      true (.ok []) (.ok none none none) (.ok []) "BHP.AX").triple
    = (some 1, some 2, some 3) := by decide

/-- Membership test built from the dict produced by
`by_symbol = {q.get("symbol"): q for q in quotes if q.get("symbol")}`
followed by `by_symbol.get(t)`.  A quote with an empty (falsy) symbol is
excluded from the dict; later entries for the same symbol overwrite earlier
ones, so the last matching quote wins. -/
def bySymbolGet (quotes : List RawQuote) (t : String) : Option RawQuote :=
  (quotes.filter (fun q => decide (q.symbol ≠ "" ∧ q.symbol = t))).getLast?

/-- Result of a batch resolver invocation. -/
structure BatchRes where
  result : List (String × Triple)
  st : St
  calls : ℕ
  deriving DecidableEq, Repr

/-- Embeds the cache partition loop of `fetch_quotes_batch` (lines 201-207):
cache hits go into `result`, misses are appended to `missing` in order. -/
def cache_partition (now : ℤ) (st : St) :
    List String → List (String × Triple) → List String →
    List (String × Triple) × List String
  | [], result, missing => (result, missing)
  | t :: rest, result, missing =>
    match _cache_get now st t with
    | some c => cache_partition now st rest (upsert t c result) missing
    | none => cache_partition now st rest result (missing ++ [t])

/-- Embeds the DB fill loops at lines 211-215 and 220-224: for each missing
ticker, add its stored row to `result` only when one exists. -/
def db_fill (st : St) : List String → List (String × Triple) → List (String × Triple)
  | [], result => result
  | t :: rest, result =>
    match _db_get_quote st t with
    | some dbq => db_fill st rest (upsert t dbq result)
    | none => db_fill st rest result

/-- Embeds the exception-handler loops at lines 260-263, 266-269 and 272-275:
`for t in missing: if t not in result: result[t] = dbq if dbq is not None
else (None, None, None)`. -/
def db_fill_absent (st : St) : List String → List (String × Triple) → List (String × Triple)
  | [], result => result
  | t :: rest, result =>
    match lookupKey t result with
    | some _ => db_fill_absent st rest result
    | none =>
      db_fill_absent st rest (upsert t ((_db_get_quote st t).getD (none, none, none)) result)

/-- Embeds the success-path merge loop of `fetch_quotes_batch` (lines 242-254):
a ticker present in the response (any field values, even all `None`) is
cached, persisted and written to `result`; a ticker absent from the response
falls back to its stored row, else the fully-absent triple, with no writes. -/
def batch_merge (now : ℤ) (quotes : List RawQuote) :
    List String → List (String × Triple) → St → List (String × Triple) × St
  | [], result, st => (result, st)
  | t :: rest, result, st =>
    match bySymbolGet quotes t with
    | some q =>
      batch_merge now quotes rest (upsert t (tripleOf q) result)
        (_db_set_quote (_cache_set now st t (tripleOf q)) t (tripleOf q))
    | none =>
      batch_merge now quotes rest
        (upsert t ((_db_get_quote st t).getD (none, none, none)) result) st

/-- Embeds `fetch_quotes_batch` (lines 192-277).  `rapidapi_key` models the
truthiness of the environment variable; `outcome` is the behaviour the
get-quotes endpoint would exhibit if called.  Note the two early-return paths
(everything cached or cooling down, lines 210-215; missing API key, lines
218-224) add a missing ticker to the result only when it has a stored row. -/
def fetch_quotes_batch (now : ℤ) (st : St) (rapidapi_key : Bool)
    (outcome : FetchOutcome) (tickers : List String) : BatchRes :=
  let p := cache_partition now st tickers [] []
  let result := p.1
  let missing := p.2
  if missing.isEmpty || _rate_limited now st then
    ⟨db_fill st missing result, st, 0⟩
  else if !rapidapi_key then
    ⟨db_fill st missing result, st, 0⟩
  else
    match outcome with
    | .ok quotes =>
      let m := batch_merge now quotes missing result st
      ⟨m.1, m.2, 1⟩
    | .httpError status =>
      if status = some 429 then
        let st1 := _set_rate_limit_cooldown now st
        ⟨db_fill_absent st1 missing result, st1, 1⟩
      else
        ⟨db_fill_absent st missing result, st, 1⟩
    | .exn => ⟨db_fill_absent st missing result, st, 1⟩

/-- An open holding row, as read from the `holdings` table. -/
structure Holding where
  id : ℕ
  ticker : String
  quantity : ℚ
  purchase_price : ℚ
  deriving DecidableEq, Repr

/-- Embeds `quotes_map.get(ticker, (None, None, None))` (lines 478 and 568). -/
def holding_triple (quotes_map : List (String × Triple)) (t : String) : Triple :=
  (lookupKey t quotes_map).getD (none, none, none)

/-- Embeds the accumulation loop of `calculate_portfolio_summary`
(lines 474-494), threading `(positions_value, total_profit, daily_profit)`. -/
def summary_loop (quotes_map : List (String × Triple)) :
    List Holding → ℚ → ℚ → ℚ → ℚ × ℚ × ℚ
  | [], positions_value, total_profit, daily_profit =>
    (positions_value, total_profit, daily_profit)
  | h :: rest, positions_value, total_profit, daily_profit =>
    match holding_triple quotes_map h.ticker with
    | (current_price, prev_close, change) =>
      let effective_price : ℚ :=
        match current_price with
        | some p => p
        | none =>
          match prev_close with
          | some pc => pc
          | none => h.purchase_price
      let daily_add : ℚ :=
        match change with
        | some c => c * h.quantity
        | none =>
          match current_price, prev_close with
          | some cp, some pc => (cp - pc) * h.quantity
          | _, _ => 0
      summary_loop quotes_map rest
        (positions_value + effective_price * h.quantity)
        (total_profit + (effective_price - h.purchase_price) * h.quantity)
        (daily_profit + daily_add)

/-- The summary dict built by `calculate_portfolio_summary` (lines 500-508),
restricted to its numeric fields. -/
structure Summary where
  cash_balance : ℚ
  positions_value : ℚ
  net_worth : ℚ
  total_profit : ℚ
  daily_profit : ℚ
  deriving DecidableEq, Repr

/-- Embeds `calculate_portfolio_summary` (lines 446-508) given the result of
the batch quote fetch for the portfolio's tickers (`quotes_map`) and the
portfolio's cash balance (`None` becomes `0.0`, line 497). -/
def calculate_portfolio_summary (quotes_map : List (String × Triple))
    (holdings : List Holding) (cash_balance : Option ℚ) : Summary :=
  let acc := summary_loop quotes_map holdings 0 0 0
  let cash_float := cash_balance.getD 0
  ⟨cash_float, acc.1, cash_float + acc.1, acc.2.1, acc.2.2⟩

/-- One row of the per-holding view built by `view_portfolio`
(lines 566-597), restricted to the fields with content. -/
structure HoldingMetrics where
  id : ℕ
  ticker : String
  quantity : ℚ
  purchase_price : ℚ
  current_price : Option ℚ
  prev_close : Option ℚ
  value : ℚ
  profit_total : ℚ
  profit_daily : Option ℚ
  deriving DecidableEq, Repr

/-- Embeds the body of the `for h in holdings` loop of `view_portfolio`
(lines 567-597).  `profit_daily` starts as `None` (line 589) and is assigned
only under the two conditions at lines 592-595, so `none` means "unknown". -/
def view_holding_row (quotes_map : List (String × Triple)) (h : Holding) : HoldingMetrics :=
  match holding_triple quotes_map h.ticker with
  | (current_price, prev_close, change) =>
    let effective_price : ℚ :=
      match current_price with
      | some p => p
      | none =>
        match prev_close with
        | some pc => pc
        | none => h.purchase_price
    let profit_daily : Option ℚ :=
      match change with
      | some c => some (c * h.quantity)
      | none =>
        match current_price, prev_close with
        | some cp, some pc => some ((cp - pc) * h.quantity)
        | _, _ => none
    ⟨h.id, h.ticker, h.quantity, h.purchase_price, current_price, prev_close,
      effective_price * h.quantity, (effective_price - h.purchase_price) * h.quantity,
      profit_daily⟩

/-- The `holding_rows` list of `view_portfolio` (lines 566-597). -/
def view_holding_rows (quotes_map : List (String × Triple)) (holdings : List Holding) :
    List HoldingMetrics :=
  holdings.map (view_holding_row quotes_map)

/-- Modelled from the spec: `effective_price = current_price if present else
previous_close if present else purchase_price` (spec section 4.5), stated
independently of the code so it can be compared with both valuation sites. -/
def spec_effective_price (current_price prev_close : Option ℚ) (purchase_price : ℚ) : ℚ :=
  match current_price with
  | some p => p
  | none =>
    match prev_close with
    | some pc => pc
    | none => purchase_price

/-- The contribution of one holding to the aggregate `daily_profit` of
`calculate_portfolio_summary`: zero when neither the explicit change nor both
prices are available (lines 491-494). -/
def daily_contrib (quotes_map : List (String × Triple)) (h : Holding) : ℚ :=
  match holding_triple quotes_map h.ticker with
  | (current_price, prev_close, change) =>
    match change with
    | some c => c * h.quantity
    | none =>
      match current_price, prev_close with
      | some cp, some pc => (cp - pc) * h.quantity
      | _, _ => 0

/-- A holding whose daily profit-or-loss is unknown: no explicit change field
and not both prices present. -/
def daily_unknown (quotes_map : List (String × Triple)) (h : Holding) : Prop :=
  (holding_triple quotes_map h.ticker).2.2 = none
    ∧ ((holding_triple quotes_map h.ticker).1 = none
        ∨ (holding_triple quotes_map h.ticker).2.1 = none)

instance (quotes_map : List (String × Triple)) (h : Holding) :
    Decidable (daily_unknown quotes_map h) :=
  inferInstanceAs (Decidable ((holding_triple quotes_map h.ticker).2.2 = none
    ∧ ((holding_triple quotes_map h.ticker).1 = none
        ∨ (holding_triple quotes_map h.ticker).2.1 = none)))

/-- The triple the get-quotes-shaped endpoints would hand to the single-ticker
resolver: the three market fields of the first element of the result list. -/
def quotesTriple (o : FetchOutcome) : Option Triple :=
  match o with
  | .ok results => results.head?.map tripleOf
  | _ => none

/-- The triple the get-summary endpoint would hand to the resolver. -/
def summaryTriple (o : SummaryOutcome) : Option Triple :=
  match o with
  | .ok price prev_close change => some (price, prev_close, change)
  | _ => none

theorem lookupKey_upsert {α : Type} (k k' : String) (v : α) :
    ∀ l : List (String × α),
      lookupKey k (upsert k' v l) = if k = k' then some v else lookupKey k l
  | [] => by simp [upsert, lookupKey]
  | (a, b) :: rest => by
    by_cases hka : k' = a
    · subst hka
      by_cases hkk : k = k' <;> simp [upsert, lookupKey, hkk]
    · by_cases hk : k = a
      · subst hk
        have hne : k ≠ k' := fun h => hka h.symm
        simp [upsert, lookupKey, hka, hne]
      · simp [upsert, lookupKey, hka, hk, lookupKey_upsert k k' v rest]

@[simp] theorem cache_set_last_quotes (now : ℤ) (st : St) (t : String) (tr : Triple) :
    (_cache_set now st t tr).last_quotes = st.last_quotes := rfl

@[simp] theorem cache_set_rlu (now : ℤ) (st : St) (t : String) (tr : Triple) :
    (_cache_set now st t tr).RATE_LIMIT_UNTIL = st.RATE_LIMIT_UNTIL := rfl

@[simp] theorem db_set_price_cache (st : St) (t : String) (tr : Triple) :
    (_db_set_quote st t tr).PRICE_CACHE = st.PRICE_CACHE := rfl

@[simp] theorem db_set_rlu (st : St) (t : String) (tr : Triple) :
    (_db_set_quote st t tr).RATE_LIMIT_UNTIL = st.RATE_LIMIT_UNTIL := rfl

@[simp] theorem cooldown_last_quotes (now : ℤ) (st : St) :
    (_set_rate_limit_cooldown now st).last_quotes = st.last_quotes := rfl

@[simp] theorem cooldown_price_cache (now : ℤ) (st : St) :
    (_set_rate_limit_cooldown now st).PRICE_CACHE = st.PRICE_CACHE := rfl

@[simp] theorem cooldown_rlu (now : ℤ) (st : St) :
    (_set_rate_limit_cooldown now st).RATE_LIMIT_UNTIL = now + RATE_LIMIT_COOLDOWN := rfl

@[simp] theorem db_get_cooldown (now : ℤ) (st : St) (t : String) :
    _db_get_quote (_set_rate_limit_cooldown now st) t = _db_get_quote st t := rfl

@[simp] theorem db_get_cache_set (now : ℤ) (st : St) (t t' : String) (tr : Triple) :
    _db_get_quote (_cache_set now st t' tr) t = _db_get_quote st t := rfl

@[simp] theorem cache_get_db_set (now : ℤ) (st : St) (t t' : String) (tr : Triple) :
    _cache_get now (_db_set_quote st t' tr) t = _cache_get now st t := rfl

@[simp] theorem cache_get_cooldown (now now' : ℤ) (st : St) (t : String) :
    _cache_get now (_set_rate_limit_cooldown now' st) t = _cache_get now st t := rfl

theorem db_get_db_set (st : St) (t t' : String) (tr : Triple) :
    _db_get_quote (_db_set_quote st t' tr) t
      = if t = t' then some tr else _db_get_quote st t := by
  simp [_db_get_quote, _db_set_quote, lookupKey_upsert]

theorem cache_get_cache_set (now now' : ℤ) (st : St) (t t' : String) (tr : Triple) :
    _cache_get now (_cache_set now' st t' tr) t
      = if t = t' then (if now - now' ≤ PRICE_TTL_SECONDS then some tr else none)
        else _cache_get now st t := by
  by_cases h : t = t' <;> simp [_cache_get, _cache_set, lookupKey_upsert, h]

theorem cache_partition_snd (now : ℤ) (st : St) :
    ∀ (ts : List String) (r : List (String × Triple)) (m : List String),
      (cache_partition now st ts r m).2
        = m ++ ts.filter (fun t => (_cache_get now st t).isNone)
  | [], r, m => by simp [cache_partition]
  | t :: rest, r, m => by
    cases hc : _cache_get now st t with
    | some c =>
      simp [cache_partition, hc, cache_partition_snd now st rest (upsert t c r) m]
    | none =>
      simp [cache_partition, hc, cache_partition_snd now st rest r (m ++ [t])]

theorem cache_partition_fst (now : ℤ) (st : St) (t : String) :
    ∀ (ts : List String) (r : List (String × Triple)) (m : List String),
      lookupKey t (cache_partition now st ts r m).1
        = match _cache_get now st t with
          | some c => if t ∈ ts then some c else lookupKey t r
          | none => lookupKey t r
  | [], r, m => by cases hc : _cache_get now st t <;> simp [cache_partition, hc]
  | t' :: rest, r, m => by
    cases hc' : _cache_get now st t' with
    | some c' =>
      have ih := cache_partition_fst now st t rest (upsert t' c' r) m
      by_cases ht : t = t'
      · subst ht
        rw [cache_partition, hc', ih, hc']
        by_cases hm : t ∈ rest <;> simp [hm, lookupKey_upsert]
      · rw [cache_partition, hc', ih, lookupKey_upsert]
        cases hct : _cache_get now st t <;>
          simp [ht, List.mem_cons]
    | none =>
      have ih := cache_partition_fst now st t rest r (m ++ [t'])
      by_cases ht : t = t'
      · subst ht
        rw [cache_partition, hc', ih, hc']
      · rw [cache_partition, hc', ih]
        cases hct : _cache_get now st t <;> simp [ht, List.mem_cons]

theorem db_fill_lookup (st : St) (t : String) :
    ∀ (ms : List String) (r : List (String × Triple)),
      lookupKey t (db_fill st ms r)
        = match _db_get_quote st t with
          | some d => if t ∈ ms then some d else lookupKey t r
          | none => lookupKey t r
  | [], r => by cases hd : _db_get_quote st t <;> simp [db_fill, hd]
  | t' :: rest, r => by
    cases hd' : _db_get_quote st t' with
    | some d' =>
      have ih := db_fill_lookup st t rest (upsert t' d' r)
      by_cases ht : t = t'
      · subst ht
        rw [db_fill, hd', ih, hd']
        by_cases hm : t ∈ rest <;> simp [hm, lookupKey_upsert]
      · rw [db_fill, hd', ih, lookupKey_upsert]
        cases hdt : _db_get_quote st t <;> simp [ht, List.mem_cons]
    | none =>
      have ih := db_fill_lookup st t rest r
      by_cases ht : t = t'
      · subst ht
        rw [db_fill, hd', ih, hd']
      · rw [db_fill, hd', ih]
        cases hdt : _db_get_quote st t <;> simp [ht, List.mem_cons]

theorem db_fill_absent_lookup (st : St) (t : String) :
    ∀ (ms : List String) (r : List (String × Triple)),
      lookupKey t (db_fill_absent st ms r)
        = if t ∈ ms then
            some ((lookupKey t r).getD ((_db_get_quote st t).getD (none, none, none)))
          else lookupKey t r
  | [], r => by simp [db_fill_absent]
  | t' :: rest, r => by
    by_cases ht : t = t'
    · subst ht
      cases hr : lookupKey t r with
      | some v =>
        have ih := db_fill_absent_lookup st t rest r
        rw [db_fill_absent, hr, ih, hr]
        by_cases hm : t ∈ rest <;> simp [hm]
      | none =>
        have ih := db_fill_absent_lookup st t rest
          (upsert t ((_db_get_quote st t).getD (none, none, none)) r)
        rw [db_fill_absent, hr, ih, lookupKey_upsert]
        by_cases hm : t ∈ rest <;> simp [hm]
    · have hlu : ∀ v, lookupKey t (upsert t' v r) = lookupKey t r := by
        intro v; rw [lookupKey_upsert]; simp [ht]
      cases hr' : lookupKey t' r with
      | some v =>
        have ih := db_fill_absent_lookup st t rest r
        rw [db_fill_absent, hr', ih]
        simp [ht, List.mem_cons]
      | none =>
        have ih := db_fill_absent_lookup st t rest
          (upsert t' ((_db_get_quote st t').getD (none, none, none)) r)
        rw [db_fill_absent, hr', ih, hlu]
        simp [ht, List.mem_cons]

theorem batch_merge_fst (now : ℤ) (quotes : List RawQuote) (t : String) :
    ∀ (ms : List String) (r : List (String × Triple)) (st : St),
      lookupKey t (batch_merge now quotes ms r st).1
        = if t ∈ ms then
            some (match bySymbolGet quotes t with
                  | some q => tripleOf q
                  | none => (_db_get_quote st t).getD (none, none, none))
          else lookupKey t r
  | [], r, st => by simp [batch_merge]
  | t' :: rest, r, st => by
    by_cases ht : t = t'
    · subst ht
      cases hb : bySymbolGet quotes t with
      | some q =>
        have ih := batch_merge_fst now quotes t rest (upsert t (tripleOf q) r)
          (_db_set_quote (_cache_set now st t (tripleOf q)) t (tripleOf q))
        rw [batch_merge, hb, ih, hb]
        by_cases hm : t ∈ rest <;> simp [hm, lookupKey_upsert]
      | none =>
        have ih := batch_merge_fst now quotes t rest
          (upsert t ((_db_get_quote st t).getD (none, none, none)) r) st
        rw [batch_merge, hb, ih, hb]
        by_cases hm : t ∈ rest <;> simp [hm, lookupKey_upsert]
    · have hlu : ∀ v, lookupKey t (upsert t' v r) = lookupKey t r := by
        intro v; rw [lookupKey_upsert]; simp [ht]
      cases hb' : bySymbolGet quotes t' with
      | some q' =>
        have ih := batch_merge_fst now quotes t rest (upsert t' (tripleOf q') r)
          (_db_set_quote (_cache_set now st t' (tripleOf q')) t' (tripleOf q'))
        rw [batch_merge, hb', ih, hlu]
        have hdb : _db_get_quote
            (_db_set_quote (_cache_set now st t' (tripleOf q')) t' (tripleOf q')) t
            = _db_get_quote st t := by
          rw [db_get_db_set]; simp [ht]
        rw [hdb]
        simp [ht, List.mem_cons]
      | none =>
        have ih := batch_merge_fst now quotes t rest
          (upsert t' ((_db_get_quote st t').getD (none, none, none)) r) st
        rw [batch_merge, hb', ih, hlu]
        simp [ht, List.mem_cons]

theorem batch_merge_rlu (now : ℤ) (quotes : List RawQuote) :
    ∀ (ms : List String) (r : List (String × Triple)) (st : St),
      (batch_merge now quotes ms r st).2.RATE_LIMIT_UNTIL = st.RATE_LIMIT_UNTIL
  | [], r, st => rfl
  | t' :: rest, r, st => by
    cases hb' : bySymbolGet quotes t' with
    | some q' =>
      rw [batch_merge, hb', batch_merge_rlu now quotes rest _ _]
      simp
    | none =>
      rw [batch_merge, hb', batch_merge_rlu now quotes rest _ _]

theorem batch_merge_db_some (now : ℤ) (quotes : List RawQuote) (t : String)
    (q : RawQuote) (hq : bySymbolGet quotes t = some q) :
    ∀ (ms : List String) (r : List (String × Triple)) (st : St),
      lookupKey t (batch_merge now quotes ms r st).2.last_quotes
        = if t ∈ ms then some (tripleOf q) else lookupKey t st.last_quotes
  | [], r, st => by simp [batch_merge]
  | t' :: rest, r, st => by
    by_cases ht : t = t'
    · subst ht
      rw [batch_merge, hq]
      rw [batch_merge_db_some now quotes t q hq rest _ _]
      by_cases hm : t ∈ rest <;>
        simp [hm, _db_set_quote, lookupKey_upsert]
    · cases hb' : bySymbolGet quotes t' with
      | some q' =>
        rw [batch_merge, hb', batch_merge_db_some now quotes t q hq rest _ _]
        have : lookupKey t
            (_db_set_quote (_cache_set now st t' (tripleOf q')) t' (tripleOf q')).last_quotes
            = lookupKey t st.last_quotes := by
          simp [_db_set_quote, lookupKey_upsert, ht]
        rw [this]
        simp [ht, List.mem_cons]
      | none =>
        rw [batch_merge, hb', batch_merge_db_some now quotes t q hq rest _ _]
        simp [ht, List.mem_cons]

theorem batch_merge_db_none (now : ℤ) (quotes : List RawQuote) (t : String)
    (hq : bySymbolGet quotes t = none) :
    ∀ (ms : List String) (r : List (String × Triple)) (st : St),
      lookupKey t (batch_merge now quotes ms r st).2.last_quotes
        = lookupKey t st.last_quotes
  | [], r, st => rfl
  | t' :: rest, r, st => by
    by_cases ht : t = t'
    · subst ht
      rw [batch_merge, hq, batch_merge_db_none now quotes t hq rest _ _]
    · cases hb' : bySymbolGet quotes t' with
      | some q' =>
        rw [batch_merge, hb', batch_merge_db_none now quotes t hq rest _ _]
        simp [_db_set_quote, lookupKey_upsert, ht]
      | none =>
        rw [batch_merge, hb', batch_merge_db_none now quotes t hq rest _ _]

theorem batch_merge_cache_some (now : ℤ) (quotes : List RawQuote) (t : String)
    (q : RawQuote) (hq : bySymbolGet quotes t = some q) :
    ∀ (ms : List String) (r : List (String × Triple)) (st : St),
      lookupKey t (batch_merge now quotes ms r st).2.PRICE_CACHE
        = if t ∈ ms then some (now, tripleOf q) else lookupKey t st.PRICE_CACHE
  | [], r, st => by simp [batch_merge]
  | t' :: rest, r, st => by
    by_cases ht : t = t'
    · subst ht
      rw [batch_merge, hq, batch_merge_cache_some now quotes t q hq rest _ _]
      by_cases hm : t ∈ rest <;>
        simp [hm, _db_set_quote, _cache_set, lookupKey_upsert]
    · cases hb' : bySymbolGet quotes t' with
      | some q' =>
        rw [batch_merge, hb', batch_merge_cache_some now quotes t q hq rest _ _]
        have : lookupKey t
            (_db_set_quote (_cache_set now st t' (tripleOf q')) t' (tripleOf q')).PRICE_CACHE
            = lookupKey t st.PRICE_CACHE := by
          simp [_db_set_quote, _cache_set, lookupKey_upsert, ht]
        rw [this]
        simp [ht, List.mem_cons]
      | none =>
        rw [batch_merge, hb', batch_merge_cache_some now quotes t q hq rest _ _]
        simp [ht, List.mem_cons]

theorem batch_merge_cache_none (now : ℤ) (quotes : List RawQuote) (t : String)
    (hq : bySymbolGet quotes t = none) :
    ∀ (ms : List String) (r : List (String × Triple)) (st : St),
      lookupKey t (batch_merge now quotes ms r st).2.PRICE_CACHE
        = lookupKey t st.PRICE_CACHE
  | [], r, st => rfl
  | t' :: rest, r, st => by
    by_cases ht : t = t'
    · subst ht
      rw [batch_merge, hq, batch_merge_cache_none now quotes t hq rest _ _]
    · cases hb' : bySymbolGet quotes t' with
      | some q' =>
        rw [batch_merge, hb', batch_merge_cache_none now quotes t hq rest _ _]
        simp [_db_set_quote, _cache_set, lookupKey_upsert, ht]
      | none =>
        rw [batch_merge, hb', batch_merge_cache_none now quotes t hq rest _ _]

theorem step_quotes_done (now : ℤ) (st : St) (oq : FetchOutcome) (tk : String)
    (tr : Triple) (st' : St) (h : step_quotes now st none oq tk = .done tr st') :
    quotesTriple oq = some tr ∨ _db_get_quote st tk = some tr := by
  cases oq with
  | ok results =>
    cases results with
    | nil => simp [step_quotes] at h
    | cons r rs =>
      by_cases hf : (r.regularMarketPrice.isSome || r.regularMarketPreviousClose.isSome
          || r.regularMarketChange.isSome) = true
      · simp only [step_quotes, List.head?, hf, if_true] at h
        cases h
        left
        simp [quotesTriple, List.head?]
      · simp only [step_quotes, List.head?, hf, if_false] at h
        exact StepRes.noConfusion h
  | httpError status =>
    by_cases hs : status = some 429 <;>
    · cases hdb : _db_get_quote st tk with
      | some dbq =>
        simp only [step_quotes, hs, if_true, if_false, db_get_cooldown, hdb] at h
        cases h
        right
        rfl
      | none =>
        simp only [step_quotes, hs, if_true, if_false, db_get_cooldown, hdb] at h
        exact StepRes.noConfusion h
  | exn =>
    cases hdb : _db_get_quote st tk with
    | some dbq =>
      simp only [step_quotes, hdb] at h
      cases h
      right
      rfl
    | none =>
      simp only [step_quotes, hdb] at h
      exact StepRes.noConfusion h

theorem step_quotes_cont (now : ℤ) (st : St) (oq : FetchOutcome) (tk : String)
    (st' : St) (h : step_quotes now st none oq tk = .cont st') :
    st'.last_quotes = st.last_quotes ∧ st'.PRICE_CACHE = st.PRICE_CACHE := by
  cases oq with
  | ok results =>
    cases results with
    | nil =>
      simp only [step_quotes, List.head?] at h
      cases h
      exact ⟨rfl, rfl⟩
    | cons r rs =>
      by_cases hf : (r.regularMarketPrice.isSome || r.regularMarketPreviousClose.isSome
          || r.regularMarketChange.isSome) = true
      · simp only [step_quotes, List.head?, hf, if_true] at h
        exact StepRes.noConfusion h
      · simp only [step_quotes, List.head?, hf, if_false] at h
        cases h
        exact ⟨rfl, rfl⟩
  | httpError status =>
    by_cases hs : status = some 429 <;>
    · cases hdb : _db_get_quote st tk with
      | some dbq =>
        simp only [step_quotes, hs, if_true, if_false, db_get_cooldown, hdb] at h
        exact StepRes.noConfusion h
      | none =>
        simp only [step_quotes, hs, if_true, if_false, db_get_cooldown, hdb] at h
        cases h
        simp
  | exn =>
    cases hdb : _db_get_quote st tk with
    | some dbq =>
      simp only [step_quotes, hdb] at h
      exact StepRes.noConfusion h
    | none =>
      simp only [step_quotes, hdb] at h
      cases h
      exact ⟨rfl, rfl⟩

theorem step_summary_done (now : ℤ) (st : St) (os' : SummaryOutcome) (tk : String)
    (tr : Triple) (st' : St) (h : step_summary now st none os' tk = .done tr st') :
    summaryTriple os' = some tr ∨ _db_get_quote st tk = some tr := by
  cases os' with
  | ok p pc c =>
    by_cases hf : (p.isSome || pc.isSome || c.isSome) = true
    · simp only [step_summary, hf, if_true] at h
      cases h
      left
      rfl
    · simp only [step_summary, hf, if_false] at h
      exact StepRes.noConfusion h
  | httpError status =>
    by_cases hs : status = some 429 <;>
    · cases hdb : _db_get_quote st tk with
      | some dbq =>
        simp only [step_summary, hs, if_true, if_false, db_get_cooldown, hdb] at h
        cases h
        right
        rfl
      | none =>
        simp only [step_summary, hs, if_true, if_false, db_get_cooldown, hdb] at h
        exact StepRes.noConfusion h
  | exn =>
    cases hdb : _db_get_quote st tk with
    | some dbq =>
      simp only [step_summary, hdb] at h
      cases h
      right
      rfl
    | none =>
      simp only [step_summary, hdb] at h
      exact StepRes.noConfusion h

theorem step_summary_cont (now : ℤ) (st : St) (os' : SummaryOutcome) (tk : String)
    (st' : St) (h : step_summary now st none os' tk = .cont st') :
    st'.last_quotes = st.last_quotes ∧ st'.PRICE_CACHE = st.PRICE_CACHE := by
  cases os' with
  | ok p pc c =>
    by_cases hf : (p.isSome || pc.isSome || c.isSome) = true
    · simp only [step_summary, hf, if_true] at h
      exact StepRes.noConfusion h
    · simp only [step_summary, hf, if_false] at h
      cases h
      exact ⟨rfl, rfl⟩
  | httpError status =>
    by_cases hs : status = some 429 <;>
    · cases hdb : _db_get_quote st tk with
      | some dbq =>
        simp only [step_summary, hs, if_true, if_false, db_get_cooldown, hdb] at h
        exact StepRes.noConfusion h
      | none =>
        simp only [step_summary, hs, if_true, if_false, db_get_cooldown, hdb] at h
        cases h
        simp
  | exn =>
    cases hdb : _db_get_quote st tk with
    | some dbq =>
      simp only [step_summary, hdb] at h
      exact StepRes.noConfusion h
    | none =>
      simp only [step_summary, hdb] at h
      cases h
      exact ⟨rfl, rfl⟩

theorem step_public_done (now : ℤ) (st : St) (op : FetchOutcome) (tk : String)
    (tr : Triple) (st' : St) (h : step_public now st none op tk = .done tr st') :
    quotesTriple op = some tr ∨ _db_get_quote st tk = some tr := by
  cases op with
  | ok results =>
    cases results with
    | nil => simp [step_public] at h
    | cons r rs =>
      simp only [step_public, List.head?] at h
      cases h
      left
      simp [quotesTriple, List.head?]
  | httpError status =>
    by_cases hs : status = some 429 <;>
    · cases hdb : _db_get_quote st tk with
      | some dbq =>
        simp only [step_public, hs, if_true, if_false, db_get_cooldown, hdb] at h
        cases h
        right
        rfl
      | none =>
        simp only [step_public, hs, if_true, if_false, db_get_cooldown, hdb] at h
        exact StepRes.noConfusion h
  | exn =>
    cases hdb : _db_get_quote st tk with
    | some dbq =>
      simp only [step_public, hdb] at h
      cases h
      right
      rfl
    | none =>
      simp only [step_public, hdb] at h
      exact StepRes.noConfusion h

theorem step_public_cont (now : ℤ) (st : St) (op : FetchOutcome) (tk : String)
    (st' : St) (h : step_public now st none op tk = .cont st') :
    st'.last_quotes = st.last_quotes ∧ st'.PRICE_CACHE = st.PRICE_CACHE := by
  cases op with
  | ok results =>
    cases results with
    | nil =>
      simp only [step_public, List.head?] at h
      cases h
      exact ⟨rfl, rfl⟩
    | cons r rs =>
      simp only [step_public, List.head?] at h
      exact StepRes.noConfusion h
  | httpError status =>
    by_cases hs : status = some 429 <;>
    · cases hdb : _db_get_quote st tk with
      | some dbq =>
        simp only [step_public, hs, if_true, if_false, db_get_cooldown, hdb] at h
        exact StepRes.noConfusion h
      | none =>
        simp only [step_public, hs, if_true, if_false, db_get_cooldown, hdb] at h
        cases h
        simp
  | exn =>
    cases hdb : _db_get_quote st tk with
    | some dbq =>
      simp only [step_public, hdb] at h
      exact StepRes.noConfusion h
    | none =>
      simp only [step_public, hdb] at h
      cases h
      exact ⟨rfl, rfl⟩

theorem cache_get_some_eq (now now' : ℤ) (st : St) (t : String) (a b : Triple)
    (h1 : _cache_get now st t = some a) (h2 : _cache_get now' st t = some b) :
    a = b := by
  cases hl : lookupKey t st.PRICE_CACHE with
  | none =>
    simp only [_cache_get, hl] at h1
    exact Option.noConfusion h1
  | some e =>
    obtain ⟨ts, tr⟩ := e
    simp only [_cache_get, hl] at h1 h2
    by_cases c1 : now - ts ≤ PRICE_TTL_SECONDS
    · rw [if_pos c1] at h1
      by_cases c2 : now' - ts ≤ PRICE_TTL_SECONDS
      · rw [if_pos c2] at h2
        cases h1
        cases h2
        rfl
      · rw [if_neg c2] at h2
        cases h2
    · rw [if_neg c1] at h1
      cases h1

theorem fetch_batch_if_true (now : ℤ) (st : St) (k : Bool) (outcome : FetchOutcome)
    (tickers : List String)
    (hcond : ((cache_partition now st tickers [] []).2.isEmpty
        || _rate_limited now st) = true) :
    fetch_quotes_batch now st k outcome tickers
      = ⟨db_fill st (cache_partition now st tickers [] []).2
          (cache_partition now st tickers [] []).1, st, 0⟩ := by
  simp only [fetch_quotes_batch, hcond, if_true]

theorem fetch_batch_nokey (now : ℤ) (st : St) (outcome : FetchOutcome)
    (tickers : List String)
    (hcond : ((cache_partition now st tickers [] []).2.isEmpty
        || _rate_limited now st) = false) :
    fetch_quotes_batch now st false outcome tickers
      = ⟨db_fill st (cache_partition now st tickers [] []).2
          (cache_partition now st tickers [] []).1, st, 0⟩ := by
  simp only [fetch_quotes_batch, hcond, Bool.false_eq_true, if_false, Bool.not_false, if_true]

theorem fetch_batch_ok (now : ℤ) (st : St) (quotes : List RawQuote)
    (tickers : List String)
    (hcond : ((cache_partition now st tickers [] []).2.isEmpty
        || _rate_limited now st) = false) :
    fetch_quotes_batch now st true (.ok quotes) tickers
      = ⟨(batch_merge now quotes (cache_partition now st tickers [] []).2
            (cache_partition now st tickers [] []).1 st).1,
         (batch_merge now quotes (cache_partition now st tickers [] []).2
            (cache_partition now st tickers [] []).1 st).2, 1⟩ := by
  simp only [fetch_quotes_batch, hcond, Bool.false_eq_true, if_false, Bool.not_true]

theorem fetch_batch_429 (now : ℤ) (st : St) (tickers : List String)
    (hcond : ((cache_partition now st tickers [] []).2.isEmpty
        || _rate_limited now st) = false) :
    fetch_quotes_batch now st true (.httpError (some 429)) tickers
      = ⟨db_fill_absent (_set_rate_limit_cooldown now st)
          (cache_partition now st tickers [] []).2
          (cache_partition now st tickers [] []).1,
         _set_rate_limit_cooldown now st, 1⟩ := by
  simp only [fetch_quotes_batch, hcond, Bool.false_eq_true, if_false, Bool.not_true, if_true]

theorem fetch_batch_httpError_other (now : ℤ) (st : St) (status : Option ℕ)
    (tickers : List String)
    (hcond : ((cache_partition now st tickers [] []).2.isEmpty
        || _rate_limited now st) = false)
    (hs : ¬status = some 429) :
    fetch_quotes_batch now st true (.httpError status) tickers
      = ⟨db_fill_absent st (cache_partition now st tickers [] []).2
          (cache_partition now st tickers [] []).1, st, 1⟩ := by
  simp only [fetch_quotes_batch, hcond, Bool.false_eq_true, if_false, Bool.not_true, hs]

theorem fetch_batch_exn (now : ℤ) (st : St) (tickers : List String)
    (hcond : ((cache_partition now st tickers [] []).2.isEmpty
        || _rate_limited now st) = false) :
    fetch_quotes_batch now st true .exn tickers
      = ⟨db_fill_absent st (cache_partition now st tickers [] []).2
          (cache_partition now st tickers [] []).1, st, 1⟩ := by
  simp only [fetch_quotes_batch, hcond, Bool.false_eq_true, if_false, Bool.not_true]

theorem fetch_batch_calls_le_one (now : ℤ) (st : St) (k : Bool)
    (outcome : FetchOutcome) (tickers : List String) :
    (fetch_quotes_batch now st k outcome tickers).calls ≤ 1 := by
  by_cases hcond : ((cache_partition now st tickers [] []).2.isEmpty
      || _rate_limited now st) = true
  · rw [fetch_batch_if_true now st k outcome tickers hcond]
    exact Nat.zero_le 1
  · rw [Bool.not_eq_true] at hcond
    cases k with
    | false =>
      rw [fetch_batch_nokey now st outcome tickers hcond]
      exact Nat.zero_le 1
    | true =>
      cases outcome with
      | ok quotes => rw [fetch_batch_ok now st quotes tickers hcond]
      | httpError status =>
        by_cases hs : status = some 429
        · subst hs
          rw [fetch_batch_429 now st tickers hcond]
        · rw [fetch_batch_httpError_other now st status tickers hcond hs]
      | exn => rw [fetch_batch_exn now st tickers hcond]

theorem summary_loop_cons (qm : List (String × Triple)) (h : Holding)
    (rest : List Holding) (pv tp dp : ℚ) :
    summary_loop qm (h :: rest) pv tp dp
      = summary_loop qm rest
          (pv + spec_effective_price (holding_triple qm h.ticker).1
              (holding_triple qm h.ticker).2.1 h.purchase_price * h.quantity)
          (tp + (spec_effective_price (holding_triple qm h.ticker).1
              (holding_triple qm h.ticker).2.1 h.purchase_price - h.purchase_price)
              * h.quantity)
          (dp + daily_contrib qm h) := by
  rcases hht : holding_triple qm h.ticker with ⟨cp, pc, ch⟩
  simp only [summary_loop, daily_contrib, spec_effective_price, hht]

theorem summary_loop_eq (qm : List (String × Triple)) :
    ∀ (hs : List Holding) (pv tp dp : ℚ),
      summary_loop qm hs pv tp dp
        = (pv + (hs.map (fun h => spec_effective_price (holding_triple qm h.ticker).1
              (holding_triple qm h.ticker).2.1 h.purchase_price * h.quantity)).sum,
           tp + (hs.map (fun h => (spec_effective_price (holding_triple qm h.ticker).1
              (holding_triple qm h.ticker).2.1 h.purchase_price - h.purchase_price)
              * h.quantity)).sum,
           dp + (hs.map (daily_contrib qm)).sum)
  | [], pv, tp, dp => by simp [summary_loop]
  | h :: rest, pv, tp, dp => by
    rw [summary_loop_cons, summary_loop_eq qm rest]
    simp [add_assoc]

theorem daily_contrib_of_unknown (qm : List (String × Triple)) (h : Holding)
    (hu : daily_unknown qm h) : daily_contrib qm h = 0 := by
  rcases hht : holding_triple qm h.ticker with ⟨cp, pc, ch⟩
  rw [daily_unknown, hht] at hu
  obtain ⟨hch, hcp⟩ := hu
  simp only at hch hcp
  subst hch
  simp only [daily_contrib, hht]
  rcases hcp with hcp | hpc
  · subst hcp; rfl
  · subst hpc
    cases cp <;> rfl

/-- C7: for a ticker whose cache entry is fresh at both read times, two
consecutive `get_stock_price` calls (with no intervening write) return the
identical triple, issue zero provider calls, and leave the state — in
particular the cache — unchanged, whatever the providers would have done. -/
theorem cache_hit_idempotent
    (now now' : ℤ) (st : St) (k k' : Bool)
    (oq oq' : FetchOutcome) (os1 os2 : SummaryOutcome) (op op' : FetchOutcome)
    (t : String) (c c' : Triple)
    (h1 : _cache_get now st t = some c)
    (h2 : _cache_get now' st t = some c') :
    get_stock_price now st k oq os1 op t = ⟨c, st, 0⟩
    ∧ get_stock_price now' (get_stock_price now st k oq os1 op t).st k' oq' os2 op' t
        = ⟨c, st, 0⟩ := by
  have hcc : c' = c := cache_get_some_eq now' now st t c' c h2 h1
  have e1 : get_stock_price now st k oq os1 op t = ⟨c, st, 0⟩ := by
    simp only [get_stock_price, h1]
  refine ⟨e1, ?_⟩
  rw [e1]
  simp only [get_stock_price, h2, hcc]

/-- Witness for C7: a fresh entry read at times 10 and 20 (inserted at 0,
TTL 600). -/
theorem cache_hit_idempotent_witness :
    get_stock_price 10 ⟨[("BHP.AX", (0, (some 5, some 4, some 1)))], 0, []⟩ true
        (.ok []) (.ok none none none) (.ok []) "BHP.AX"
      = ⟨(some 5, some 4, some 1), ⟨[("BHP.AX", (0, (some 5, some 4, some 1)))], 0, []⟩, 0⟩
    ∧ get_stock_price 20
        (get_stock_price 10 ⟨[("BHP.AX", (0, (some 5, some 4, some 1)))], 0, []⟩ true
          (.ok []) (.ok none none none) (.ok []) "BHP.AX").st true
        (.ok []) (.ok none none none) (.ok []) "BHP.AX"
      = ⟨(some 5, some 4, some 1), ⟨[("BHP.AX", (0, (some 5, some 4, some 1)))], 0, []⟩, 0⟩ :=
  cache_hit_idempotent 10 20 ⟨[("BHP.AX", (0, (some 5, some 4, some 1)))], 0, []⟩
    true true (.ok []) (.ok []) (.ok none none none) (.ok none none none)
    (.ok []) (.ok []) "BHP.AX" (some 5, some 4, some 1) (some 5, some 4, some 1)
    (by decide) (by decide)

/-- C8: in both the per-holding view and the portfolio summary, the price used
for valuation is the resolved current price if present, else the resolved
previous close if present, else the holding's purchase price
(`spec_effective_price`, stated from the spec's words). -/
theorem effective_price_selection (qm : List (String × Triple)) (h : Holding)
    (holdings : List Holding) (cash : Option ℚ) :
    (view_holding_row qm h).value
        = spec_effective_price (holding_triple qm h.ticker).1
            (holding_triple qm h.ticker).2.1 h.purchase_price * h.quantity
    ∧ (view_holding_row qm h).profit_total
        = (spec_effective_price (holding_triple qm h.ticker).1
            (holding_triple qm h.ticker).2.1 h.purchase_price - h.purchase_price)
          * h.quantity
    ∧ (calculate_portfolio_summary qm holdings cash).positions_value
        = (holdings.map (fun hh => spec_effective_price (holding_triple qm hh.ticker).1
            (holding_triple qm hh.ticker).2.1 hh.purchase_price * hh.quantity)).sum := by
  refine ⟨?_, ?_, ?_⟩
  · rcases hht : holding_triple qm h.ticker with ⟨cp, pc, ch⟩
    simp only [view_holding_row, spec_effective_price, hht]
  · rcases hht : holding_triple qm h.ticker with ⟨cp, pc, ch⟩
    simp only [view_holding_row, spec_effective_price, hht]
  · simp only [calculate_portfolio_summary, summary_loop_eq, zero_add]

/-- C9: per-holding daily profit-or-loss in the holding view: the explicit
change times quantity when change is present; `(current - previous) * qty`
when change is absent but both prices are present; reported as absent
(`none`, never zero) otherwise. -/
theorem daily_pl_per_holding (qm : List (String × Triple)) (h : Holding)
    (cur prev chg : Option ℚ)
    (hht : holding_triple qm h.ticker = (cur, prev, chg)) :
    (∀ v, chg = some v →
      (view_holding_row qm h).profit_daily = some (v * h.quantity))
    ∧ (∀ cp pc, chg = none → cur = some cp → prev = some pc →
      (view_holding_row qm h).profit_daily = some ((cp - pc) * h.quantity))
    ∧ (chg = none → (cur = none ∨ prev = none) →
      (view_holding_row qm h).profit_daily = none) := by
  refine ⟨?_, ?_, ?_⟩
  · rintro v rfl
    simp only [view_holding_row, hht]
  · rintro cp pc rfl rfl rfl
    simp only [view_holding_row, hht]
  · rintro rfl hcp
    rcases hcp with rfl | rfl
    · simp only [view_holding_row, hht]
    · cases cur <;> simp only [view_holding_row, hht]

/-- Witness for C9: quantity 10, purchase 5; explicit change 2; then change
absent with prices 6 and 4; then everything absent. -/
theorem daily_pl_per_holding_witness :
    (view_holding_row [("A", (some 6, some 4, some 2))] ⟨1, "A", 10, 5⟩).profit_daily
        = some (2 * 10)
    ∧ (view_holding_row [("A", (some 6, some 4, none))] ⟨1, "A", 10, 5⟩).profit_daily
        = some ((6 - 4) * 10)
    ∧ (view_holding_row [("A", (none, none, none))] ⟨1, "A", 10, 5⟩).profit_daily
        = none :=
  ⟨(daily_pl_per_holding _ ⟨1, "A", 10, 5⟩ (some 6) (some 4) (some 2) (by decide)).1
      2 rfl,
   (daily_pl_per_holding _ ⟨1, "A", 10, 5⟩ (some 6) (some 4) none (by decide)).2.1
      6 4 rfl rfl rfl,
   (daily_pl_per_holding _ ⟨1, "A", 10, 5⟩ none none none (by decide)).2.2
      rfl (Or.inl rfl)⟩

/-- C10 (implicit): the aggregate `daily_profit` of the portfolio summary is
the sum of per-holding contributions in which an unknown daily P/L counts as
exactly zero; hence a portfolio whose holdings all have unknown daily P/L
reports an aggregate of `0` (a number, not an absence marker — the field's
type is numeric). -/
theorem daily_profit_aggregate (qm : List (String × Triple))
    (holdings : List Holding) (cash : Option ℚ) :
    (calculate_portfolio_summary qm holdings cash).daily_profit
        = (holdings.map (daily_contrib qm)).sum
    ∧ ((∀ h ∈ holdings, daily_unknown qm h) →
        (calculate_portfolio_summary qm holdings cash).daily_profit = 0) := by
  have e : (calculate_portfolio_summary qm holdings cash).daily_profit
      = (holdings.map (daily_contrib qm)).sum := by
    simp only [calculate_portfolio_summary, summary_loop_eq, zero_add]
  refine ⟨e, fun hall => ?_⟩
  rw [e]
  apply List.sum_eq_zero
  intro x hx
  rw [List.mem_map] at hx
  obtain ⟨hh, hmem, rfl⟩ := hx
  exact daily_contrib_of_unknown qm hh (hall hh hmem)

/-- Witness for C10: a one-holding portfolio whose only quote is fully
absent reports aggregate daily profit `0`. -/
theorem daily_profit_aggregate_witness :
    (∀ h ∈ [(⟨1, "A", 10, 5⟩ : Holding)],
        daily_unknown [("A", ((none : Option ℚ), (none : Option ℚ), (none : Option ℚ)))] h)
    ∧ (calculate_portfolio_summary [("A", (none, none, none))] [⟨1, "A", 10, 5⟩]
        (some 100)).daily_profit = 0 :=
  ⟨by decide,
   (daily_profit_aggregate [("A", (none, none, none))] [⟨1, "A", 10, 5⟩] (some 100)).2
     (by decide)⟩

@[simp] theorem lookupKey_nil {α : Type} (k : String) :
    lookupKey k ([] : List (String × α)) = none := rfl

/-- The quote the batch response holds for a given ticker. -/
def batchTriple (outcome : FetchOutcome) (t : String) : Option Triple :=
  match outcome with
  | .ok quotes => (bySymbolGet quotes t).map tripleOf
  | _ => none

theorem single_result_sources (now : ℤ) (st : St) (k : Bool) (oq : FetchOutcome)
    (os1 : SummaryOutcome) (op : FetchOutcome) (t : String) :
    (get_stock_price now st k oq os1 op t).triple = (none, none, none)
      ∨ _cache_get now st t = some (get_stock_price now st k oq os1 op t).triple
      ∨ _db_get_quote st t = some (get_stock_price now st k oq os1 op t).triple
      ∨ quotesTriple oq = some (get_stock_price now st k oq os1 op t).triple
      ∨ summaryTriple os1 = some (get_stock_price now st k oq os1 op t).triple
      ∨ quotesTriple op = some (get_stock_price now st k oq os1 op t).triple := by
  cases hc : _cache_get now st t with
  | some c =>
    have e : get_stock_price now st k oq os1 op t = ⟨c, st, 0⟩ := by
      simp only [get_stock_price, hc]
    rw [e]
    right; left; rfl
  | none =>
    cases hrl : _rate_limited now st with
    | true =>
      have e : get_stock_price now st k oq os1 op t
          = ⟨(_db_get_quote st t).getD (none, none, none), st, 0⟩ := by
        simp only [get_stock_price, hc, hrl, if_true]
      rw [e]
      cases hdb : _db_get_quote st t with
      | some d => right; right; left; simp [hdb]
      | none => left; simp [hdb]
    | false =>
      cases k with
      | true =>
        cases h1 : step_quotes now st none oq t with
        | done tr st1 =>
          have e : get_stock_price now st true oq os1 op t = ⟨tr, st1, 1⟩ := by
            simp only [get_stock_price, hc, hrl, Bool.false_eq_true, if_false, if_true, h1]
          rw [e]
          rcases step_quotes_done now st oq t tr st1 h1 with hsrc | hsrc
          · right; right; right; left; exact hsrc
          · right; right; left; exact hsrc
        | cont st1 =>
          obtain ⟨hlq1, _⟩ := step_quotes_cont now st oq t st1 h1
          cases h2 : step_summary now st1 none os1 t with
          | done tr st2 =>
            have e : get_stock_price now st true oq os1 op t = ⟨tr, st2, 2⟩ := by
              simp only [get_stock_price, hc, hrl, Bool.false_eq_true, if_false, if_true,
                h1, h2]
            rw [e]
            rcases step_summary_done now st1 os1 t tr st2 h2 with hsrc | hsrc
            · right; right; right; right; left; exact hsrc
            · right; right; left
              rw [_db_get_quote, ← hlq1]
              exact hsrc
          | cont st2 =>
            obtain ⟨hlq2, _⟩ := step_summary_cont now st1 os1 t st2 h2
            cases h3 : step_public now st2 none op t with
            | done tr st3 =>
              have e : get_stock_price now st true oq os1 op t = ⟨tr, st3, 3⟩ := by
                simp only [get_stock_price, hc, hrl, Bool.false_eq_true, if_false, if_true,
                  h1, h2, h3]
              rw [e]
              rcases step_public_done now st2 op t tr st3 h3 with hsrc | hsrc
              · right; right; right; right; right; exact hsrc
              · right; right; left
                rw [_db_get_quote, ← hlq1, ← hlq2]
                exact hsrc
            | cont st3 =>
              have e : get_stock_price now st true oq os1 op t
                  = ⟨(none, none, none), st3, 3⟩ := by
                simp only [get_stock_price, hc, hrl, Bool.false_eq_true, if_false, if_true,
                  h1, h2, h3]
              rw [e]
              left; rfl
      | false =>
        cases hp : step_public now st none op t with
        | done tr st1 =>
          have e : get_stock_price now st false oq os1 op t = ⟨tr, st1, 1⟩ := by
            simp only [get_stock_price, hc, hrl, Bool.false_eq_true, if_false, hp]
          rw [e]
          rcases step_public_done now st op t tr st1 hp with hsrc | hsrc
          · right; right; right; right; right; exact hsrc
          · right; right; left; exact hsrc
        | cont st1 =>
          have e : get_stock_price now st false oq os1 op t
              = ⟨(none, none, none), st1, 1⟩ := by
            simp only [get_stock_price, hc, hrl, Bool.false_eq_true, if_false, hp]
          rw [e]
          left; rfl

theorem db_fill_lookup_some (st : St) (t : String) (d : Triple)
    (ms : List String) (r : List (String × Triple))
    (hd : _db_get_quote st t = some d) :
    lookupKey t (db_fill st ms r) = if t ∈ ms then some d else lookupKey t r := by
  rw [db_fill_lookup, hd]

theorem db_fill_lookup_none (st : St) (t : String)
    (ms : List String) (r : List (String × Triple))
    (hd : _db_get_quote st t = none) :
    lookupKey t (db_fill st ms r) = lookupKey t r := by
  rw [db_fill_lookup, hd]

theorem db_fill_lookup_notmem (st : St) (t : String)
    (ms : List String) (r : List (String × Triple)) (hm : t ∉ ms) :
    lookupKey t (db_fill st ms r) = lookupKey t r := by
  rw [db_fill_lookup]
  cases hdb : _db_get_quote st t
  · rfl
  · exact if_neg hm

theorem cache_partition_fst_some (now : ℤ) (st : St) (t : String)
    (tickers : List String) (c : Triple) (hc : _cache_get now st t = some c) :
    lookupKey t (cache_partition now st tickers [] []).1
      = if t ∈ tickers then some c else none := by
  rw [cache_partition_fst, hc]
  rfl

theorem cache_partition_fst_none (now : ℤ) (st : St) (t : String)
    (tickers : List String) (hc : _cache_get now st t = none) :
    lookupKey t (cache_partition now st tickers [] []).1 = none := by
  rw [cache_partition_fst, hc]
  rfl

theorem cache_partition_missing_mem (now : ℤ) (st : St) (t : String)
    (tickers : List String) :
    t ∈ (cache_partition now st tickers [] []).2
      ↔ t ∈ tickers ∧ _cache_get now st t = none := by
  rw [cache_partition_snd, List.nil_append, List.mem_filter]
  constructor
  · rintro ⟨h1, h2⟩
    exact ⟨h1, by simpa [Option.isNone_iff_eq_none] using h2⟩
  · rintro ⟨h1, h2⟩
    exact ⟨h1, by simp [h2]⟩

theorem batch_merge_fst_found (now : ℤ) (quotes : List RawQuote) (t : String)
    (q : RawQuote) (ms : List String) (r : List (String × Triple)) (st : St)
    (hb : bySymbolGet quotes t = some q) :
    lookupKey t (batch_merge now quotes ms r st).1
      = if t ∈ ms then some (tripleOf q) else lookupKey t r := by
  rw [batch_merge_fst, hb]

theorem batch_merge_fst_notfound (now : ℤ) (quotes : List RawQuote) (t : String)
    (ms : List String) (r : List (String × Triple)) (st : St)
    (hb : bySymbolGet quotes t = none) :
    lookupKey t (batch_merge now quotes ms r st).1
      = if t ∈ ms then some ((_db_get_quote st t).getD (none, none, none))
        else lookupKey t r := by
  rw [batch_merge_fst, hb]

theorem cooldown_path_lookup (now : ℤ) (st : St) (t : String) (tickers : List String) :
    lookupKey t (db_fill st (cache_partition now st tickers [] []).2
        (cache_partition now st tickers [] []).1)
      = if t ∈ tickers then
          (match _cache_get now st t with
           | some c => some c
           | none => _db_get_quote st t)
        else none := by
  by_cases htk : t ∈ tickers
  · rw [if_pos htk]
    cases hcg : _cache_get now st t with
    | some c =>
      have hnm : t ∉ (cache_partition now st tickers [] []).2 := by
        rw [cache_partition_missing_mem]
        rintro ⟨_, h2⟩
        rw [hcg] at h2
        exact Option.noConfusion h2
      rw [db_fill_lookup_notmem st t _ _ hnm,
        cache_partition_fst_some now st t tickers c hcg, if_pos htk]
    | none =>
      have hm : t ∈ (cache_partition now st tickers [] []).2 :=
        (cache_partition_missing_mem now st t tickers).mpr ⟨htk, hcg⟩
      cases hdb : _db_get_quote st t with
      | some d => rw [db_fill_lookup_some st t d _ _ hdb, if_pos hm]
      | none =>
        rw [db_fill_lookup_none st t _ _ hdb,
          cache_partition_fst_none now st t tickers hcg]
  · rw [if_neg htk]
    have hnm : t ∉ (cache_partition now st tickers [] []).2 := by
      rw [cache_partition_missing_mem]
      rintro ⟨h1, _⟩
      exact htk h1
    rw [db_fill_lookup_notmem st t _ _ hnm]
    cases hcg : _cache_get now st t with
    | some c => rw [cache_partition_fst_some now st t tickers c hcg, if_neg htk]
    | none => rw [cache_partition_fst_none now st t tickers hcg]

theorem batch_result_sources (now : ℤ) (st : St) (k : Bool) (outcome : FetchOutcome)
    (tickers : List String) (t : String) :
    (lookupKey t (fetch_quotes_batch now st k outcome tickers).result).getD
        (none, none, none) = (none, none, none)
      ∨ _cache_get now st t
          = some ((lookupKey t (fetch_quotes_batch now st k outcome tickers).result).getD
              (none, none, none))
      ∨ _db_get_quote st t
          = some ((lookupKey t (fetch_quotes_batch now st k outcome tickers).result).getD
              (none, none, none))
      ∨ batchTriple outcome t
          = some ((lookupKey t (fetch_quotes_batch now st k outcome tickers).result).getD
              (none, none, none)) := by
  have hsources_early : ∀ (res : BatchRes),
      res = ⟨db_fill st (cache_partition now st tickers [] []).2
          (cache_partition now st tickers [] []).1, st, 0⟩ →
      (lookupKey t res.result).getD (none, none, none) = (none, none, none)
        ∨ _cache_get now st t = some ((lookupKey t res.result).getD (none, none, none))
        ∨ _db_get_quote st t = some ((lookupKey t res.result).getD (none, none, none))
        ∨ batchTriple outcome t
            = some ((lookupKey t res.result).getD (none, none, none)) := by
    rintro res rfl
    simp only
    rw [cooldown_path_lookup now st t tickers]
    by_cases htk : t ∈ tickers
    · rw [if_pos htk]
      cases hcg : _cache_get now st t with
      | some c => right; left; rfl
      | none =>
        cases hdb : _db_get_quote st t with
        | some d => right; right; left; rfl
        | none => left; rfl
    · rw [if_neg htk]
      left; rfl
  by_cases hcond : ((cache_partition now st tickers [] []).2.isEmpty
      || _rate_limited now st) = true
  · exact hsources_early _ (fetch_batch_if_true now st k outcome tickers hcond)
  · rw [Bool.not_eq_true] at hcond
    cases k with
    | false => exact hsources_early _ (fetch_batch_nokey now st outcome tickers hcond)
    | true =>
      have habsent : ∀ (res : BatchRes) (st0 : St),
          res = ⟨db_fill_absent st0 (cache_partition now st tickers [] []).2
              (cache_partition now st tickers [] []).1, st0, 1⟩ →
          st0.last_quotes = st.last_quotes →
          (lookupKey t res.result).getD (none, none, none) = (none, none, none)
            ∨ _cache_get now st t = some ((lookupKey t res.result).getD (none, none, none))
            ∨ _db_get_quote st t = some ((lookupKey t res.result).getD (none, none, none))
            ∨ batchTriple outcome t
                = some ((lookupKey t res.result).getD (none, none, none)) := by
        rintro res st0 rfl hlq
        simp only
        have hdbeq : _db_get_quote st0 t = _db_get_quote st t := by
          rw [_db_get_quote, _db_get_quote, hlq]
        rw [db_fill_absent_lookup st0 t (cache_partition now st tickers [] []).2
          (cache_partition now st tickers [] []).1, hdbeq]
        by_cases hm : t ∈ (cache_partition now st tickers [] []).2
        · have hcg : _cache_get now st t = none :=
            ((cache_partition_missing_mem now st t tickers).mp hm).2
          rw [if_pos hm, cache_partition_fst_none now st t tickers hcg]
          cases hdb : _db_get_quote st t with
          | some d => right; right; left; rfl
          | none => left; rfl
        · rw [if_neg hm]
          cases hcg : _cache_get now st t with
          | some c =>
            rw [cache_partition_fst_some now st t tickers c hcg]
            by_cases htk : t ∈ tickers
            · rw [if_pos htk]
              right; left; rfl
            · rw [if_neg htk]
              left; rfl
          | none =>
            rw [cache_partition_fst_none now st t tickers hcg]
            left; rfl
      cases outcome with
      | ok quotes =>
        rw [fetch_batch_ok now st quotes tickers hcond]
        simp only
        by_cases hm : t ∈ (cache_partition now st tickers [] []).2
        · cases hb : bySymbolGet quotes t with
          | some q =>
            rw [batch_merge_fst_found now quotes t q _ _ st hb, if_pos hm]
            right; right; right
            simp [batchTriple, hb]
          | none =>
            rw [batch_merge_fst_notfound now quotes t _ _ st hb, if_pos hm]
            cases hdb : _db_get_quote st t with
            | some d => right; right; left; rfl
            | none => left; rfl
        · have hlu : lookupKey t (batch_merge now quotes
              (cache_partition now st tickers [] []).2
              (cache_partition now st tickers [] []).1 st).1
              = lookupKey t (cache_partition now st tickers [] []).1 := by
            cases hb : bySymbolGet quotes t with
            | some q => rw [batch_merge_fst_found now quotes t q _ _ st hb, if_neg hm]
            | none => rw [batch_merge_fst_notfound now quotes t _ _ st hb, if_neg hm]
          rw [hlu]
          cases hcg : _cache_get now st t with
          | some c =>
            rw [cache_partition_fst_some now st t tickers c hcg]
            by_cases htk : t ∈ tickers
            · rw [if_pos htk]
              right; left; rfl
            · rw [if_neg htk]
              left; rfl
          | none =>
            rw [cache_partition_fst_none now st t tickers hcg]
            left; rfl
      | httpError status =>
        by_cases hs : status = some 429
        · subst hs
          exact habsent _ _ (fetch_batch_429 now st tickers hcond) rfl
        · exact habsent _ _ (fetch_batch_httpError_other now st status tickers hcond hs) rfl
      | exn => exact habsent _ _ (fetch_batch_exn now st tickers hcond) rfl

/-- C2: for every cache, store and provider behaviour — HTTP errors,
rate-limit signals, malformed or empty responses, missing API key — the
single-ticker resolver and, per ticker, the batch resolver are total
functions of the modelled state and outcomes (the Python handlers catch
every exception the provider calls raise), and the triple produced always
consists of independently-optional fields drawn from one of the layers:
it is the fully-absent triple, the cached triple, the stored triple, or a
triple handed back by one of the provider endpoints. -/
theorem resolve_never_raises_shape (now : ℤ) (st : St) (k : Bool)
    (oq : FetchOutcome) (os1 : SummaryOutcome) (op : FetchOutcome)
    (outcome : FetchOutcome) (tickers : List String) (t : String) :
    ((get_stock_price now st k oq os1 op t).triple = (none, none, none)
      ∨ _cache_get now st t = some (get_stock_price now st k oq os1 op t).triple
      ∨ _db_get_quote st t = some (get_stock_price now st k oq os1 op t).triple
      ∨ quotesTriple oq = some (get_stock_price now st k oq os1 op t).triple
      ∨ summaryTriple os1 = some (get_stock_price now st k oq os1 op t).triple
      ∨ quotesTriple op = some (get_stock_price now st k oq os1 op t).triple)
    ∧ ((lookupKey t (fetch_quotes_batch now st k outcome tickers).result).getD
          (none, none, none) = (none, none, none)
      ∨ _cache_get now st t
          = some ((lookupKey t (fetch_quotes_batch now st k outcome tickers).result).getD
              (none, none, none))
      ∨ _db_get_quote st t
          = some ((lookupKey t (fetch_quotes_batch now st k outcome tickers).result).getD
              (none, none, none))
      ∨ batchTriple outcome t
          = some ((lookupKey t (fetch_quotes_batch now st k outcome tickers).result).getD
              (none, none, none))) :=
  ⟨single_result_sources now st k oq os1 op t,
   batch_result_sources now st k outcome tickers t⟩

/-- C3: the cooldown trigger sets the global deadline to
`now + RATE_LIMIT_COOLDOWN` (and the batch 429 handler does exactly that),
and while the current time is before the deadline every single-ticker resolve
and every batch resolve — for any ticker — issues zero outbound provider
calls and resolves each ticker from the fresh cache, else the stored row,
else the fully-absent triple. -/
theorem cooldown_suppression (now now2 now3 : ℤ) (st st2 st3 : St) (k : Bool)
    (oq : FetchOutcome) (os1 : SummaryOutcome) (op : FetchOutcome)
    (outcome : FetchOutcome) (tickers tickers3 : List String) (t t2 : String)
    (h : _rate_limited now st = true) :
    (_set_rate_limit_cooldown now2 st2).RATE_LIMIT_UNTIL = now2 + RATE_LIMIT_COOLDOWN
    ∧ get_stock_price now st k oq os1 op t
        = ⟨(match _cache_get now st t with
            | some c => c
            | none => (_db_get_quote st t).getD (none, none, none)), st, 0⟩
    ∧ (fetch_quotes_batch now st k outcome tickers).calls = 0
    ∧ (t2 ∈ tickers →
        (lookupKey t2 (fetch_quotes_batch now st k outcome tickers).result).getD
            (none, none, none)
          = match _cache_get now st t2 with
            | some c => c
            | none => (_db_get_quote st t2).getD (none, none, none))
    ∧ (((cache_partition now3 st3 tickers3 [] []).2.isEmpty
          || _rate_limited now3 st3) = false →
        (fetch_quotes_batch now3 st3 true (.httpError (some 429)) tickers3).st.RATE_LIMIT_UNTIL
          = now3 + RATE_LIMIT_COOLDOWN) := by
  have hcond : ((cache_partition now st tickers [] []).2.isEmpty
      || _rate_limited now st) = true := by
    rw [h, Bool.or_true]
  refine ⟨rfl, ?_, ?_, ?_, ?_⟩
  · cases hc : _cache_get now st t with
    | some c => simp only [get_stock_price, hc]
    | none => simp only [get_stock_price, hc, h, if_true]
  · rw [fetch_batch_if_true now st k outcome tickers hcond]
  · intro hmem
    rw [fetch_batch_if_true now st k outcome tickers hcond]
    simp only
    rw [cooldown_path_lookup now st t2 tickers, if_pos hmem]
    cases hcg : _cache_get now st t2 with
    | some c => rfl
    | none => rfl
  · intro hcond3
    rw [fetch_batch_429 now3 st3 tickers3 hcond3]
    rfl

/-- Witness for C3: cooldown active (deadline 10, now 5); the single resolve
returns the stored row with zero calls; the batch issues zero calls and maps
a store-backed ticker to its row; a separate non-cooling state shows the 429
handler setting the deadline. -/
theorem cooldown_suppression_witness :
    (_set_rate_limit_cooldown 7 ⟨[], 0, []⟩).RATE_LIMIT_UNTIL = 7 + RATE_LIMIT_COOLDOWN
    ∧ get_stock_price 5 ⟨[], 10, [("A", (some 3, none, none))]⟩ true .exn .exn .exn "A"
        = ⟨(some 3, none, none), ⟨[], 10, [("A", (some 3, none, none))]⟩, 0⟩
    ∧ (fetch_quotes_batch 5 ⟨[], 10, [("A", (some 3, none, none))]⟩ true .exn
        ["A", "B"]).calls = 0
    ∧ (lookupKey "A" (fetch_quotes_batch 5 ⟨[], 10, [("A", (some 3, none, none))]⟩ true
        .exn ["A", "B"]).result).getD (none, none, none) = (some 3, none, none)
    ∧ (fetch_quotes_batch 0 ⟨[], 0, []⟩ true (.httpError (some 429))
        ["C"]).st.RATE_LIMIT_UNTIL = 0 + RATE_LIMIT_COOLDOWN := by
  have h := cooldown_suppression 5 7 0 ⟨[], 10, [("A", (some 3, none, none))]⟩
    ⟨[], 0, []⟩ ⟨[], 0, []⟩ true .exn .exn .exn .exn ["A", "B"] ["C"] "A" "A"
    (by decide)
  exact ⟨h.1, h.2.1.trans (by decide), h.2.2.1,
    (h.2.2.2.1 (by decide)).trans (by decide), h.2.2.2.2 (by decide)⟩

/-- C1 counterexample: with a STALE cache entry P1 = (1,2,3) (inserted at 0,
read at 700 or 1000, TTL 600) and a stored row P2 = (4,5,6), the resolver
returns P2 — not P1 as the claim states — both when the cooldown is active
(first conjunct, deadline 2000 > now 1000, zero calls) and when the provider
answers RateLimited (second conjunct, 429 from get-quotes).  `_cache_get`
treats a stale entry as absent, so the post-429 `if cached is not None`
fallback in the source can never return a stale triple. -/
theorem resolve_stale_cache_counterexample :
    (get_stock_price 1000
        ⟨[("BHP.AX", (0, (some 1, some 2, some 3)))], 2000,
          [("BHP.AX", (some 4, some 5, some 6))]⟩
        true (.ok []) (.ok none none none) (.ok []) "BHP.AX").triple
      = (some 4, some 5, some 6)
    ∧ (get_stock_price 700
        ⟨[("BHP.AX", (0, (some 1, some 2, some 3)))], 0,
          [("BHP.AX", (some 4, some 5, some 6))]⟩
        true (.httpError (some 429)) (.ok none none none) (.ok []) "BHP.AX").triple
      = (some 4, some 5, some 6)
    ∧ ((some 4, some 5, some 6) : Triple) ≠ (some 1, some 2, some 3) := by
  decide

/-- C1 (amended): with a stale cache entry `P1` and a stored row `P2`:
if the cooldown is inactive and the get-quotes call succeeds with at least
one non-absent field, resolve returns that provider triple (freshest wins);
if the cooldown is active, or the provider returns RateLimited (which sets
the deadline to `now + RATE_LIMIT_COOLDOWN`), resolve returns the stored row
`P2` — the stale cache entry `P1` is never returned, because `_cache_get`
reports stale entries as absent and the resolver's stale-cache fallback
branches are therefore unreachable. -/
theorem resolve_fallback_ordering_amended (now ts : ℤ) (st : St) (t : String)
    (P1 P2 : Triple) (r : RawQuote) (rs : List RawQuote)
    (os1 : SummaryOutcome) (op : FetchOutcome) (oq : FetchOutcome)
    (hstale : lookupKey t st.PRICE_CACHE = some (ts, P1))
    (hold : ¬(now - ts ≤ PRICE_TTL_SECONDS))
    (hdb : _db_get_quote st t = some P2) :
    (_rate_limited now st = true →
      get_stock_price now st true oq os1 op t = ⟨P2, st, 0⟩)
    ∧ (_rate_limited now st = false →
       (r.regularMarketPrice.isSome || r.regularMarketPreviousClose.isSome
          || r.regularMarketChange.isSome) = true →
      get_stock_price now st true (.ok (r :: rs)) os1 op t
        = ⟨tripleOf r,
           _db_set_quote (_cache_set now st t (tripleOf r)) t (tripleOf r), 1⟩)
    ∧ (_rate_limited now st = false →
      get_stock_price now st true (.httpError (some 429)) os1 op t
        = ⟨P2, _set_rate_limit_cooldown now st, 1⟩) := by
  have hcget : _cache_get now st t = none := by
    simp only [_cache_get, hstale, if_neg hold]
  refine ⟨fun hrl => ?_, fun hrl hf => ?_, fun hrl => ?_⟩
  · simp only [get_stock_price, hcget, hrl, if_true, hdb, Option.getD_some]
  · have hstep : step_quotes now st none (.ok (r :: rs)) t
        = .done (tripleOf r)
            (_db_set_quote (_cache_set now st t (tripleOf r)) t (tripleOf r)) := by
      simp only [step_quotes, List.head?, hf, if_true]
    simp only [get_stock_price, hcget, hrl, Bool.false_eq_true, if_false, if_true, hstep]
  · have hstep : step_quotes now st none (.httpError (some 429)) t
        = .done P2 (_set_rate_limit_cooldown now st) := by
      simp only [step_quotes, if_true, db_get_cooldown, hdb]
    simp only [get_stock_price, hcget, hrl, Bool.false_eq_true, if_false, if_true, hstep]

/-- Witness for C1 (amended): stale entry (1,2,3) from time 0 read at 700,
stored row (4,5,6); cooldown case with deadline 2000, then a successful
provider answer (7,8,9), then a 429. -/
theorem resolve_fallback_ordering_amended_witness :
    get_stock_price 700
        ⟨[("BHP.AX", (0, (some 1, some 2, some 3)))], 2000,
          [("BHP.AX", (some 4, some 5, some 6))]⟩
        true .exn (.ok none none none) (.ok []) "BHP.AX"
      = ⟨(some 4, some 5, some 6),
         ⟨[("BHP.AX", (0, (some 1, some 2, some 3)))], 2000,
          [("BHP.AX", (some 4, some 5, some 6))]⟩, 0⟩
    ∧ get_stock_price 700
        ⟨[("BHP.AX", (0, (some 1, some 2, some 3)))], 0,
          [("BHP.AX", (some 4, some 5, some 6))]⟩
        true (.ok [⟨"BHP.AX", some 7, some 8, some 9⟩]) (.ok none none none)
        (.ok []) "BHP.AX"
      = ⟨(some 7, some 8, some 9),
         ⟨[("BHP.AX", (700, (some 7, some 8, some 9)))], 0,
          [("BHP.AX", (some 7, some 8, some 9))]⟩, 1⟩
    ∧ get_stock_price 700
        ⟨[("BHP.AX", (0, (some 1, some 2, some 3)))], 0,
          [("BHP.AX", (some 4, some 5, some 6))]⟩
        true (.httpError (some 429)) (.ok none none none) (.ok []) "BHP.AX"
      = ⟨(some 4, some 5, some 6),
         ⟨[("BHP.AX", (0, (some 1, some 2, some 3)))], 700 + RATE_LIMIT_COOLDOWN,
          [("BHP.AX", (some 4, some 5, some 6))]⟩, 1⟩ := by
  have h1 := resolve_fallback_ordering_amended 700 0
    ⟨[("BHP.AX", (0, (some 1, some 2, some 3)))], 2000,
      [("BHP.AX", (some 4, some 5, some 6))]⟩
    "BHP.AX" (some 1, some 2, some 3) (some 4, some 5, some 6)
    ⟨"BHP.AX", some 7, some 8, some 9⟩ [] (.ok none none none) (.ok []) .exn
    (by decide) (by decide) (by decide)
  have h2 := resolve_fallback_ordering_amended 700 0
    ⟨[("BHP.AX", (0, (some 1, some 2, some 3)))], 0,
      [("BHP.AX", (some 4, some 5, some 6))]⟩
    "BHP.AX" (some 1, some 2, some 3) (some 4, some 5, some 6)
    ⟨"BHP.AX", some 7, some 8, some 9⟩ [] (.ok none none none) (.ok []) .exn
    (by decide) (by decide) (by decide)
  refine ⟨h1.1 (by decide), (h2.2.1 (by decide) (by decide)).trans (by decide),
    (h2.2.2 (by decide)).trans (by decide)⟩

/-- C4 counterexample: ticker "A" is a cache miss, the cooldown is inactive,
the key is present, and the shared provider response is empty; the store
holds (7,-,-).  The batch resolver falls back to the store and returns
(7,-,-) for "A", while the single-ticker resolver — given the same (empty)
response, and nothing from the lower-priority providers — returns the
fully-absent triple: the per-ticker results differ. -/
theorem batch_equivalence_counterexample :
    lookupKey "A" (fetch_quotes_batch 0 ⟨[], 0, [("A", (some 7, none, none))]⟩ true
        (.ok []) ["A"]).result = some (some 7, none, none)
    ∧ (get_stock_price 0 ⟨[], 0, [("A", (some 7, none, none))]⟩ true (.ok [])
        (.ok none none none) (.ok []) "A").triple = (none, none, none)
    ∧ some ((some 7, none, none) : Triple) ≠ some ((none, none, none) : Triple) := by
  decide

/-- C4 (amended): the batch resolver always issues at most one outbound
provider call; and for every all-miss ticker set, every ticker whose entry in
the provider response carries at least one non-absent field resolves in the
batch to exactly the triple that the single-ticker resolver would return
when handed the same response restricted to that ticker.  (When the entry is
missing or all-absent the two resolvers may differ: the batch falls back to
the store or returns the all-absent entry, while the single resolver
consults lower-priority providers.) -/
theorem batch_equivalence_amended (now : ℤ) (st : St) (quotes : List RawQuote)
    (tickers : List String) (t : String) (q : RawQuote)
    (os1 : SummaryOutcome) (op : FetchOutcome) (k : Bool) (outcome : FetchOutcome)
    (hmiss : ∀ t' ∈ tickers, _cache_get now st t' = none)
    (hrl : _rate_limited now st = false)
    (ht : t ∈ tickers)
    (hq : bySymbolGet quotes t = some q)
    (hf : (q.regularMarketPrice.isSome || q.regularMarketPreviousClose.isSome
        || q.regularMarketChange.isSome) = true) :
    (fetch_quotes_batch now st k outcome tickers).calls ≤ 1
    ∧ lookupKey t (fetch_quotes_batch now st true (.ok quotes) tickers).result
        = some (tripleOf q)
    ∧ (get_stock_price now st true (.ok [q]) os1 op t).triple = tripleOf q := by
  have hm : t ∈ (cache_partition now st tickers [] []).2 :=
    (cache_partition_missing_mem now st t tickers).mpr ⟨ht, hmiss t ht⟩
  have hcond : ((cache_partition now st tickers [] []).2.isEmpty
      || _rate_limited now st) = false := by
    rw [hrl, Bool.or_false]
    cases hme : (cache_partition now st tickers [] []).2 with
    | nil => exact absurd (hme ▸ hm) (List.not_mem_nil t)
    | cons a l => rfl
  refine ⟨fetch_batch_calls_le_one now st k outcome tickers, ?_, ?_⟩
  · rw [fetch_batch_ok now st quotes tickers hcond]
    simp only
    rw [batch_merge_fst_found now quotes t q _ _ st hq, if_pos hm]
  · have hc : _cache_get now st t = none := hmiss t ht
    have hstep : step_quotes now st none (.ok [q]) t
        = .done (tripleOf q)
            (_db_set_quote (_cache_set now st t (tripleOf q)) t (tripleOf q)) := by
      simp only [step_quotes, List.head?, hf, if_true]
    simp only [get_stock_price, hc, hrl, Bool.false_eq_true, if_false, if_true, hstep]

/-- Witness for C4 (amended): one all-miss ticker, a response entry with a
present price, arbitrary lower-priority behaviours. -/
theorem batch_equivalence_amended_witness :
    (fetch_quotes_batch 0 ⟨[], 0, []⟩ true .exn ["A"]).calls ≤ 1
    ∧ lookupKey "A" (fetch_quotes_batch 0 ⟨[], 0, []⟩ true
        (.ok [⟨"A", some 5, none, none⟩]) ["A"]).result = some (some 5, none, none)
    ∧ (get_stock_price 0 ⟨[], 0, []⟩ true (.ok [⟨"A", some 5, none, none⟩])
        .exn .exn "A").triple = (some 5, none, none) := by
  have h := batch_equivalence_amended 0 ⟨[], 0, []⟩ [⟨"A", some 5, none, none⟩]
    ["A"] "A" ⟨"A", some 5, none, none⟩ .exn .exn true .exn
    (by decide) (by decide) (by decide) (by decide) (by decide)
  exact ⟨h.1, h.2.1.trans (by decide), h.2.2.trans (by decide)⟩

theorem db_fill_absent_partition_isSome (now : ℤ) (st st0 : St) (t : String)
    (tickers : List String) (htk : t ∈ tickers) :
    (lookupKey t (db_fill_absent st0 (cache_partition now st tickers [] []).2
        (cache_partition now st tickers [] []).1)).isSome = true := by
  rw [db_fill_absent_lookup]
  by_cases hm : t ∈ (cache_partition now st tickers [] []).2
  · rw [if_pos hm]
    rfl
  · rw [if_neg hm]
    cases hcg : _cache_get now st t with
    | none =>
      exact absurd ((cache_partition_missing_mem now st t tickers).mpr ⟨htk, hcg⟩) hm
    | some c =>
      rw [cache_partition_fst_some now st t tickers c hcg, if_pos htk]
      rfl

theorem batch_merge_partition_isSome (now : ℤ) (st : St) (quotes : List RawQuote)
    (t : String) (tickers : List String) (htk : t ∈ tickers) :
    (lookupKey t (batch_merge now quotes (cache_partition now st tickers [] []).2
        (cache_partition now st tickers [] []).1 st).1).isSome = true := by
  by_cases hm : t ∈ (cache_partition now st tickers [] []).2
  · cases hb : bySymbolGet quotes t with
    | some q =>
      rw [batch_merge_fst_found now quotes t q _ _ st hb, if_pos hm]
      rfl
    | none =>
      rw [batch_merge_fst_notfound now quotes t _ _ st hb, if_pos hm]
      rfl
  · have hlu : lookupKey t (batch_merge now quotes
        (cache_partition now st tickers [] []).2
        (cache_partition now st tickers [] []).1 st).1
        = lookupKey t (cache_partition now st tickers [] []).1 := by
      cases hb : bySymbolGet quotes t with
      | some q => rw [batch_merge_fst_found now quotes t q _ _ st hb, if_neg hm]
      | none => rw [batch_merge_fst_notfound now quotes t _ _ st hb, if_neg hm]
    rw [hlu]
    cases hcg : _cache_get now st t with
    | none =>
      exact absurd ((cache_partition_missing_mem now st t tickers).mpr ⟨htk, hcg⟩) hm
    | some c =>
      rw [cache_partition_fst_some now st t tickers c hcg, if_pos htk]
      rfl

/-- C5 counterexample: ticker "A" is requested, present in the provider
response with all three fields null, and the store holds (7,-,-).  Contrary
to the claim, the batch does NOT resolve "A" from the store: it returns the
all-absent triple, and it writes that all-null triple both to the cache and
to the store, destroying the previous stored row. -/
theorem batch_allnull_counterexample :
    lookupKey "A" (fetch_quotes_batch 0 ⟨[], 0, [("A", (some 7, none, none))]⟩ true
        (.ok [⟨"A", none, none, none⟩]) ["A"]).result = some (none, none, none)
    ∧ _db_get_quote (fetch_quotes_batch 0 ⟨[], 0, [("A", (some 7, none, none))]⟩ true
        (.ok [⟨"A", none, none, none⟩]) ["A"]).st "A" = some (none, none, none)
    ∧ lookupKey "A" (fetch_quotes_batch 0 ⟨[], 0, [("A", (some 7, none, none))]⟩ true
        (.ok [⟨"A", none, none, none⟩]) ["A"]).st.PRICE_CACHE
        = some (0, (none, none, none))
    ∧ some ((none, none, none) : Triple) ≠ some ((some 7, none, none) : Triple) := by
  decide

/-- C5 (amended): whenever the provider call path is taken (some ticker
missed the cache, no cooldown, key present), every requested ticker gets an
entry in the result mapping.  A missed ticker ABSENT from the provider
response falls back to its stored row (else the fully-absent triple) and
neither its cache entry nor its stored row is written.  A missed ticker
PRESENT in the response — even with all three fields null — is written to
the cache and the store and returned as-is.  In the early-return paths
(everything cached, cooldown active, or missing API key) a ticker with
neither a fresh cache entry nor a stored row is omitted from the mapping. -/
theorem batch_per_ticker_amended (now : ℤ) (st : St) (quotes : List RawQuote)
    (tickers : List String) (t : String) (q : RawQuote) (outcome : FetchOutcome)
    (k : Bool) :
    (((cache_partition now st tickers [] []).2.isEmpty || _rate_limited now st) = false →
      t ∈ tickers →
      (lookupKey t (fetch_quotes_batch now st true outcome tickers).result).isSome = true)
    ∧ (_cache_get now st t = none → t ∈ tickers → _rate_limited now st = false →
        bySymbolGet quotes t = none →
        lookupKey t (fetch_quotes_batch now st true (.ok quotes) tickers).result
          = some ((_db_get_quote st t).getD (none, none, none))
        ∧ lookupKey t (fetch_quotes_batch now st true (.ok quotes) tickers).st.last_quotes
            = lookupKey t st.last_quotes
        ∧ lookupKey t (fetch_quotes_batch now st true (.ok quotes) tickers).st.PRICE_CACHE
            = lookupKey t st.PRICE_CACHE)
    ∧ (_cache_get now st t = none → t ∈ tickers → _rate_limited now st = false →
        bySymbolGet quotes t = some q →
        lookupKey t (fetch_quotes_batch now st true (.ok quotes) tickers).result
          = some (tripleOf q)
        ∧ _db_get_quote (fetch_quotes_batch now st true (.ok quotes) tickers).st t
            = some (tripleOf q)
        ∧ lookupKey t (fetch_quotes_batch now st true (.ok quotes) tickers).st.PRICE_CACHE
            = some (now, tripleOf q))
    ∧ ((((cache_partition now st tickers [] []).2.isEmpty
          || _rate_limited now st) = true ∨ k = false) →
        _cache_get now st t = none → _db_get_quote st t = none →
        lookupKey t (fetch_quotes_batch now st k outcome tickers).result = none) := by
  refine ⟨fun hcond htk => ?_, fun hc htk hrl hb => ?_, fun hc htk hrl hb => ?_,
    fun hor hc hdb => ?_⟩
  · cases outcome with
    | ok quotes0 =>
      rw [fetch_batch_ok now st quotes0 tickers hcond]
      exact batch_merge_partition_isSome now st quotes0 t tickers htk
    | httpError status =>
      by_cases hs : status = some 429
      · subst hs
        rw [fetch_batch_429 now st tickers hcond]
        exact db_fill_absent_partition_isSome now st _ t tickers htk
      · rw [fetch_batch_httpError_other now st status tickers hcond hs]
        exact db_fill_absent_partition_isSome now st st t tickers htk
    | exn =>
      rw [fetch_batch_exn now st tickers hcond]
      exact db_fill_absent_partition_isSome now st st t tickers htk
  · have hm : t ∈ (cache_partition now st tickers [] []).2 :=
      (cache_partition_missing_mem now st t tickers).mpr ⟨htk, hc⟩
    have hcond : ((cache_partition now st tickers [] []).2.isEmpty
        || _rate_limited now st) = false := by
      rw [hrl, Bool.or_false]
      cases hme : (cache_partition now st tickers [] []).2 with
      | nil => exact absurd (hme ▸ hm) (List.not_mem_nil t)
      | cons a l => rfl
    rw [fetch_batch_ok now st quotes tickers hcond]
    refine ⟨?_, ?_, ?_⟩
    · simp only
      rw [batch_merge_fst_notfound now quotes t _ _ st hb, if_pos hm]
    · simp only
      rw [batch_merge_db_none now quotes t hb]
    · simp only
      rw [batch_merge_cache_none now quotes t hb]
  · have hm : t ∈ (cache_partition now st tickers [] []).2 :=
      (cache_partition_missing_mem now st t tickers).mpr ⟨htk, hc⟩
    have hcond : ((cache_partition now st tickers [] []).2.isEmpty
        || _rate_limited now st) = false := by
      rw [hrl, Bool.or_false]
      cases hme : (cache_partition now st tickers [] []).2 with
      | nil => exact absurd (hme ▸ hm) (List.not_mem_nil t)
      | cons a l => rfl
    rw [fetch_batch_ok now st quotes tickers hcond]
    refine ⟨?_, ?_, ?_⟩
    · simp only
      rw [batch_merge_fst_found now quotes t q _ _ st hb, if_pos hm]
    · simp only [_db_get_quote]
      rw [batch_merge_db_some now quotes t q hb, if_pos hm]
    · simp only
      rw [batch_merge_cache_some now quotes t q hb, if_pos hm]
  · have tail : lookupKey t (db_fill st (cache_partition now st tickers [] []).2
        (cache_partition now st tickers [] []).1) = none := by
      rw [cooldown_path_lookup]
      by_cases htk : t ∈ tickers
      · rw [if_pos htk, hc]
        exact hdb
      · rw [if_neg htk]
    by_cases hcond : ((cache_partition now st tickers [] []).2.isEmpty
        || _rate_limited now st) = true
    · rw [fetch_batch_if_true now st k outcome tickers hcond]
      exact tail
    · rw [Bool.not_eq_true] at hcond
      have hk : k = false := by
        rcases hor with hct | hk
        · exact absurd hct (by rw [hcond]; exact Bool.false_ne_true)
        · exact hk
      subst hk
      rw [fetch_batch_nokey now st outcome tickers hcond]
      exact tail

/-- Witness for C5 (amended): store row (7,-,-) for "A"; a response
containing "B" only exercises the absent-ticker fallback; a response
containing "A" with a price exercises the present-ticker write path; the
cooldown path omits an unknown ticker. -/
theorem batch_per_ticker_amended_witness :
    (lookupKey "A" (fetch_quotes_batch 0 ⟨[], 0, [("A", (some 7, none, none))]⟩ true
        .exn ["A"]).result).isSome = true
    ∧ lookupKey "A" (fetch_quotes_batch 0 ⟨[], 0, [("A", (some 7, none, none))]⟩ true
        (.ok [⟨"B", some 1, none, none⟩]) ["A"]).result = some (some 7, none, none)
    ∧ lookupKey "A" (fetch_quotes_batch 0 ⟨[], 0, []⟩ true
        (.ok [⟨"A", some 5, none, none⟩]) ["A"]).result = some (some 5, none, none)
    ∧ lookupKey "Z" (fetch_quotes_batch 5 ⟨[], 10, []⟩ true .exn ["Z"]).result = none := by
  have h1 := batch_per_ticker_amended 0 ⟨[], 0, [("A", (some 7, none, none))]⟩
    [⟨"B", some 1, none, none⟩] ["A"] "A" ⟨"B", some 1, none, none⟩ .exn true
  have h2 := batch_per_ticker_amended 0 (⟨[], 0, []⟩ : St)
    [⟨"A", some 5, none, none⟩] ["A"] "A" ⟨"A", some 5, none, none⟩ .exn true
  have h3 := batch_per_ticker_amended 5 (⟨[], 10, []⟩ : St) [] ["Z"] "Z"
    ⟨"Z", none, none, none⟩ .exn true
  exact ⟨h1.1 (by decide) (by decide),
    ((h1.2.1 (by decide) (by decide) (by decide) (by decide)).1).trans (by decide),
    ((h2.2.2.1 (by decide) (by decide) (by decide) (by decide)).1).trans (by decide),
    h3.2.2.2 (Or.inl (by decide)) (by decide) (by decide)⟩

/-- C6 counterexample: with an empty get-quotes response and an all-absent
summary, the public Yahoo fallback ACCEPTS a result whose three fields are
all null: the all-absent triple is cached, persisted (overwriting the good
stored row (9,-,-)), and returned — acceptance without any non-absent
field, contradicting the claimed "if and only if". -/
theorem public_accepts_allnull_counterexample :
    get_stock_price 0 ⟨[], 0, [("X", (some 9, none, none))]⟩ true (.ok [])
        (.ok none none none) (.ok [⟨"ANY", none, none, none⟩]) "X"
      = ⟨(none, none, none),
         ⟨[("X", (0, (none, none, none)))], 0, [("X", (none, none, none))]⟩, 3⟩ := by
  decide

/-- C6 (amended): for the two RapidAPI providers (get-quotes, then
get-summary) a response is accepted — cached, persisted and returned, with
no lower-priority call — exactly when at least one of the three fields is
non-absent; when the check fails, the next provider IS called.  The public
Yahoo fallback, by contrast, accepts any non-empty result list regardless of
field presence (and returns the fully-absent triple, without writes, only
when its result list is empty). -/
theorem provider_acceptance_amended (now : ℤ) (st : St) (t : String)
    (r : RawQuote) (rs : List RawQuote) (p pc c : Option ℚ)
    (os1 : SummaryOutcome) (op : FetchOutcome)
    (hc : _cache_get now st t = none)
    (hrl : _rate_limited now st = false) :
    ((r.regularMarketPrice.isSome || r.regularMarketPreviousClose.isSome
        || r.regularMarketChange.isSome) = true →
      get_stock_price now st true (.ok (r :: rs)) os1 op t
        = ⟨tripleOf r,
           _db_set_quote (_cache_set now st t (tripleOf r)) t (tripleOf r), 1⟩)
    ∧ ((r.regularMarketPrice.isSome || r.regularMarketPreviousClose.isSome
        || r.regularMarketChange.isSome) = false →
      2 ≤ (get_stock_price now st true (.ok (r :: rs)) os1 op t).calls)
    ∧ ((p.isSome || pc.isSome || c.isSome) = true →
      get_stock_price now st true (.ok []) (.ok p pc c) op t
        = ⟨(p, pc, c), _db_set_quote (_cache_set now st t (p, pc, c)) t (p, pc, c), 2⟩)
    ∧ ((p.isSome || pc.isSome || c.isSome) = false →
      (get_stock_price now st true (.ok []) (.ok p pc c) op t).calls = 3)
    ∧ (get_stock_price now st true (.ok []) (.ok none none none) (.ok (r :: rs)) t
        = ⟨tripleOf r,
           _db_set_quote (_cache_set now st t (tripleOf r)) t (tripleOf r), 3⟩)
    ∧ (get_stock_price now st true (.ok []) (.ok none none none) (.ok []) t
        = ⟨(none, none, none), st, 3⟩) := by
  have hq_empty : step_quotes now st none (.ok []) t = .cont st := by
    simp only [step_quotes, List.head?]
  have hs_allnone : step_summary now st none (.ok none none none) t = .cont st := by
    simp only [step_summary, Option.isSome_none, Bool.or_false, Bool.false_eq_true,
      if_false]
  refine ⟨fun hf => ?_, fun hf => ?_, fun hf => ?_, fun hf => ?_, ?_, ?_⟩
  · have hstep : step_quotes now st none (.ok (r :: rs)) t
        = .done (tripleOf r)
            (_db_set_quote (_cache_set now st t (tripleOf r)) t (tripleOf r)) := by
      simp only [step_quotes, List.head?, hf, if_true]
    simp only [get_stock_price, hc, hrl, Bool.false_eq_true, if_false, if_true, hstep]
  · have hstep : step_quotes now st none (.ok (r :: rs)) t = .cont st := by
      simp only [step_quotes, List.head?, hf, Bool.false_eq_true, if_false]
    cases h2 : step_summary now st none os1 t with
    | done tr st2 =>
      have e : get_stock_price now st true (.ok (r :: rs)) os1 op t = ⟨tr, st2, 2⟩ := by
        simp only [get_stock_price, hc, hrl, Bool.false_eq_true, if_false, if_true,
          hstep, h2]
      rw [e]
    | cont st2 =>
      cases h3 : step_public now st2 none op t with
      | done tr st3 =>
        have e : get_stock_price now st true (.ok (r :: rs)) os1 op t = ⟨tr, st3, 3⟩ := by
          simp only [get_stock_price, hc, hrl, Bool.false_eq_true, if_false, if_true,
            hstep, h2, h3]
        rw [e]
        exact Nat.le_succ 2
      | cont st3 =>
        have e : get_stock_price now st true (.ok (r :: rs)) os1 op t
            = ⟨(none, none, none), st3, 3⟩ := by
          simp only [get_stock_price, hc, hrl, Bool.false_eq_true, if_false, if_true,
            hstep, h2, h3]
        rw [e]
        exact Nat.le_succ 2
  · have hstep2 : step_summary now st none (.ok p pc c) t
        = .done (p, pc, c)
            (_db_set_quote (_cache_set now st t (p, pc, c)) t (p, pc, c)) := by
      simp only [step_summary, hf, if_true]
    simp only [get_stock_price, hc, hrl, Bool.false_eq_true, if_false, if_true,
      hq_empty, hstep2]
  · have hstep2 : step_summary now st none (.ok p pc c) t = .cont st := by
      simp only [step_summary, hf, Bool.false_eq_true, if_false]
    cases h3 : step_public now st none op t with
    | done tr st3 =>
      have e : get_stock_price now st true (.ok []) (.ok p pc c) op t = ⟨tr, st3, 3⟩ := by
        simp only [get_stock_price, hc, hrl, Bool.false_eq_true, if_false, if_true,
          hq_empty, hstep2, h3]
      rw [e]
    | cont st3 =>
      have e : get_stock_price now st true (.ok []) (.ok p pc c) op t
          = ⟨(none, none, none), st3, 3⟩ := by
        simp only [get_stock_price, hc, hrl, Bool.false_eq_true, if_false, if_true,
          hq_empty, hstep2, h3]
      rw [e]
  · have hstep3 : step_public now st none (.ok (r :: rs)) t
        = .done (tripleOf r)
            (_db_set_quote (_cache_set now st t (tripleOf r)) t (tripleOf r)) := by
      simp only [step_public, List.head?]
    simp only [get_stock_price, hc, hrl, Bool.false_eq_true, if_false, if_true,
      hq_empty, hs_allnone, hstep3]
  · have hstep3 : step_public now st none (.ok []) t = .cont st := by
      simp only [step_public, List.head?]
    simp only [get_stock_price, hc, hrl, Bool.false_eq_true, if_false, if_true,
      hq_empty, hs_allnone, hstep3]

/-- Witness for C6 (amended): empty state; a quote with a present price is
accepted by get-quotes with one call; an all-null quote forces a second
call; a summary with a present price is accepted with two calls; an
all-null summary forces a third call; the public endpoint accepts an
all-null quote with three calls. -/
theorem provider_acceptance_amended_witness :
    get_stock_price 0 ⟨[], 0, []⟩ true (.ok [⟨"A", some 5, none, none⟩]) .exn .exn "A"
      = ⟨(some 5, none, none),
         ⟨[("A", (0, (some 5, none, none)))], 0, [("A", (some 5, none, none))]⟩, 1⟩
    ∧ 2 ≤ (get_stock_price 0 ⟨[], 0, []⟩ true (.ok [⟨"A", none, none, none⟩])
        .exn .exn "A").calls
    ∧ get_stock_price 0 ⟨[], 0, []⟩ true (.ok []) (.ok (some 6) none none) .exn "A"
      = ⟨(some 6, none, none),
         ⟨[("A", (0, (some 6, none, none)))], 0, [("A", (some 6, none, none))]⟩, 2⟩
    ∧ (get_stock_price 0 ⟨[], 0, []⟩ true (.ok []) (.ok none none none) .exn "A").calls = 3
    ∧ get_stock_price 0 ⟨[], 0, []⟩ true (.ok []) (.ok none none none)
        (.ok [⟨"A", none, none, none⟩]) "A"
      = ⟨(none, none, none),
         ⟨[("A", (0, (none, none, none)))], 0, [("A", (none, none, none))]⟩, 3⟩ := by
  have h1 := provider_acceptance_amended 0 ⟨[], 0, []⟩ "A"
    ⟨"A", some 5, none, none⟩ [] (some 6) none none .exn .exn (by decide) (by decide)
  have h2 := provider_acceptance_amended 0 ⟨[], 0, []⟩ "A"
    ⟨"A", none, none, none⟩ [] none none none .exn .exn (by decide) (by decide)
  exact ⟨(h1.1 (by decide)).trans (by decide), h2.2.1 (by decide),
    (h1.2.2.1 (by decide)).trans (by decide), h2.2.2.2.1 (by decide),
    (h2.2.2.2.2.1).trans (by decide)⟩
